import Mathlib

/-!
Verification of the synergy-network presale-contracts programs.

Shallow embedding of the Solana programs under `src/` (snrg_staking,
snrg_presale in its two variants, snrg_swap, snrg_self_rescue_registry).
Machine integers are modelled as `Nat`/`Int` with explicit bounds checks
mirroring the Rust `checked_*` arithmetic; fallible instructions return
`Except`, with Anchor's `require!` rendered as `requireE` and the `?`
operator as monadic bind; a failed instruction commits nothing (Solana
transactions are atomic, so a failure rolls back every account mutation).
Public keys are modelled as byte lists; the external keccak-256 and
secp256k1-recovery collaborators are taken as function parameters.
-/

/-- Largest value of a Rust `u64`. -/
def u64Max : Nat := 2 ^ 64 - 1

/-- Largest value of a Rust `i64`. -/
def i64Max : Int := 2 ^ 63 - 1

/-- Smallest value of a Rust `i64`. -/
def i64Min : Int := -(2 ^ 63)

/-- Two's-complement wrap into the `i64` range. -/
def wrapI64 (x : Int) : Int := (x + 2 ^ 63) % 2 ^ 64 - 2 ^ 63

/-- Rust `as i64` cast of a `u64` value. -/
def i64OfU64 (n : Nat) : Int := wrapI64 (Int.ofNat n)

/-- Solana public keys, modelled as their byte sequence. -/
abbrev Pubkey := List Nat

/-- `Pubkey::default()`, the all-zero key. -/
def zeroPubkey : Pubkey := List.replicate 32 0

/-- An SPL token account: mint, owner and balance (`spl_token::state::Account`). -/
structure TokenAccount where
  mint : Pubkey
  owner : Pubkey
  amount : Nat
deriving DecidableEq, Repr

/-- SPL token `transfer` (and `transfer_checked`): moves `amount` between
two accounts of the same mint; fails on insufficient source balance or
destination overflow. -/
def splTransfer (src dst : TokenAccount) (amount : Nat) :
    Option (TokenAccount × TokenAccount) :=
  if src.mint = dst.mint ∧ amount ≤ src.amount ∧ dst.amount + amount ≤ u64Max then
    some ({ src with amount := src.amount - amount },
          { dst with amount := dst.amount + amount })
  else none

lemma splTransfer_some {src dst src' dst' : TokenAccount} {amount : Nat}
    (h : splTransfer src dst amount = some (src', dst')) :
    src' = { src with amount := src.amount - amount } ∧
      dst' = { dst with amount := dst.amount + amount } ∧
      src.mint = dst.mint ∧ amount ≤ src.amount ∧ dst.amount + amount ≤ u64Max := by
  unfold splTransfer at h
  by_cases hc : src.mint = dst.mint ∧ amount ≤ src.amount ∧ dst.amount + amount ≤ u64Max
  · rw [if_pos hc] at h
    obtain ⟨h1, h2⟩ := Prod.mk.injEq .. ▸ Option.some.injEq .. ▸ h
    exact ⟨h1.symm, h2.symm, hc⟩
  · rw [if_neg hc] at h
    cases h

/-- Little-endian byte encoding on `w` bytes (Rust `to_le_bytes` of an
unsigned integer). -/
def leBytes : Nat → Nat → List Nat
  | 0, _ => []
  | w + 1, n => n % 256 :: leBytes w (n / 256)

/-- `to_le_bytes` of a signed `w`-byte integer (two's complement). -/
def leBytesInt (w : Nat) (x : Int) : List Nat :=
  leBytes w (Int.toNat (x % ((2 : Int) ^ (8 * w))))

/-- Anchor `require!`: succeed iff the condition holds, else the given error. -/
def requireE {ε : Type} (c : Prop) [Decidable c] (e : ε) : Except ε Unit :=
  if c then .ok () else .error e

/-- Lift an `Option` (a fallible lookup or external call) into `Except`,
modelling Rust `ok_or(e)?`. -/
def liftE {ε α : Type} (o : Option α) (e : ε) : Except ε α :=
  match o with
  | some a => .ok a
  | none => .error e

@[simp] lemma requireE_bind_ok {ε α : Type} {c : Prop} [Decidable c] {e : ε}
    {k : Unit → Except ε α} {r : α} :
    (requireE c e >>= k) = .ok r ↔ c ∧ k () = .ok r := by
  unfold requireE
  split <;> simp_all [Bind.bind, Except.bind]

@[simp] lemma requireE_bind_error {ε α : Type} {c : Prop} [Decidable c] {e e' : ε}
    {k : Unit → Except ε α} :
    (requireE c e >>= k) = .error e' ↔
      (¬ c ∧ e = e') ∨ (c ∧ k () = .error e') := by
  unfold requireE
  split <;> simp_all [Bind.bind, Except.bind]

@[simp] lemma liftE_bind_ok {ε α β : Type} {o : Option α} {e : ε}
    {k : α → Except ε β} {r : β} :
    (liftE o e >>= k) = .ok r ↔ ∃ a, o = some a ∧ k a = .ok r := by
  cases o <;> simp_all [liftE, Bind.bind, Except.bind]

@[simp] lemma liftE_bind_error {ε α β : Type} {o : Option α} {e e' : ε}
    {k : α → Except ε β} :
    (liftE o e >>= k) = .error e' ↔
      (o = none ∧ e = e') ∨ (∃ a, o = some a ∧ k a = .error e') := by
  cases o <;> simp_all [liftE, Bind.bind, Except.bind]

@[simp] lemma ok_bind {ε α β : Type} {x : α} {k : α → Except ε β} :
    (Except.ok x >>= k) = k x := rfl

@[simp] lemma error_bind {ε α β : Type} {e : ε} {k : α → Except ε β} :
    ((Except.error e : Except ε α) >>= k) = .error e := rfl

lemma requireE_pos {ε : Type} {c : Prop} [Decidable c] (h : c) (e : ε) :
    requireE c e = .ok () := by
  unfold requireE
  exact if_pos h

lemma requireE_neg {ε : Type} {c : Prop} [Decidable c] (h : ¬ c) (e : ε) :
    requireE c e = .error e := by
  unfold requireE
  exact if_neg h

@[simp] lemma requireE_true {ε : Type} {e : ε} : requireE True e = .ok () :=
  requireE_pos trivial e

@[simp] lemma pure_eq_ok {ε α : Type} {a r : α} :
    (pure a : Except ε α) = .ok r ↔ a = r := by
  constructor
  · intro h; cases h; rfl
  · intro h; cases h; rfl

@[simp] lemma pure_ne_error {ε α : Type} {a : α} {e : ε} :
    (pure a : Except ε α) = .error e ↔ False := by
  constructor
  · intro h; cases h
  · intro h; cases h

@[simp] lemma liftE_some {ε α : Type} {a : α} {e : ε} :
    liftE (some a) e = .ok a := rfl

@[simp] lemma liftE_none {ε α : Type} {e : ε} :
    (liftE none e : Except ε α) = .error e := rfl

@[simp] lemma map_error {ε α β : Type} {f : α → β} {e : ε} :
    (Except.error e : Except ε α).map f = .error e := rfl

@[simp] lemma map_ok_eval {ε α β : Type} {f : α → β} {a : α} :
    (Except.ok a : Except ε α).map f = .ok (f a) := rfl

lemma map_ok {α β ε : Type} {f : α → β} {x : Except ε α} {b : β}
    (h : x.map f = .ok b) : ∃ a, x = .ok a ∧ f a = b := by
  cases x <;> simp_all [Except.map]

namespace SnrgStaking

/-- Errors of `src/solana/programs/snrg_staking/src/lib.rs` (`StakingError`),
plus `TokenProgramError` for a failure propagated from the SPL token CPI. -/
inductive StakingError where
  | InvalidAmount
  | InvalidDuration
  | MathOverflow
  | AlreadyWithdrawn
  | NotMatured
  | AlreadyMatured
  | SnrgAlreadySet
  | InvalidMint
  | AlreadyFunded
  | SnrgNotSet
  | InsufficientBalance
  | InvalidOwner
  | NotFunded
  | InsufficientReserves
  | Paused
  | NotPaused
  | AlreadyPaused
  | TokenProgramError
deriving DecidableEq, Repr

/-- One entry of the reward-rate table. -/
structure RewardRate where
  duration : Nat
  bps : Nat
deriving DecidableEq, Repr

/-- The `Staking` account state. -/
structure Staking where
  snrg_mint : Pubkey
  treasury : Pubkey
  is_funded : Bool
  paused : Bool
  reward_reserve : Nat
  promised_rewards : Nat
  reward_rates : List RewardRate
deriving DecidableEq, Repr

/-- A `StakeAccount` record. -/
structure StakeAccount where
  owner : Pubkey
  amount : Nat
  reward : Nat
  end_time : Int
  withdrawn : Bool
deriving DecidableEq, Repr

def EARLY_WITHDRAWAL_FEE_BPS : Nat := 500

def EMERGENCY_FEE_BPS : Nat := 1000

def BPS_DENOMINATOR : Nat := 10000

def SECONDS_PER_DAY : Int := 86400

/-- The `initialize` instruction: the fresh staking state (always succeeds
on a fresh PDA). -/
def initStaking (treasury : Pubkey) : Staking :=
  { snrg_mint := zeroPubkey
    treasury := treasury
    is_funded := false
    paused := false
    reward_reserve := 0
    promised_rewards := 0
    reward_rates := [⟨30, 125⟩, ⟨60, 250⟩, ⟨90, 375⟩, ⟨180, 500⟩] }

/-- `set_snrg_mint`. -/
def set_snrg_mint (st : Staking) (snrg_mint : Pubkey) : Except StakingError Staking := do
  requireE (¬ snrg_mint = zeroPubkey) .InvalidMint
  requireE (st.snrg_mint = zeroPubkey) .SnrgAlreadySet
  pure { st with snrg_mint := snrg_mint }

/-- Result of `fund_contract` / `top_up_reserves`. -/
structure FundResult where
  staking : Staking
  treasury_snrgtoken : TokenAccount
  staking_vault : TokenAccount
deriving DecidableEq, Repr

/-- `fund_contract`: one-time funding; sets `is_funded` and the reserve,
then transfers the amount into the vault. -/
def fund_contract (st : Staking) (amount : Nat)
    (treasury_snrgtoken staking_vault : TokenAccount) :
    Except StakingError FundResult := do
  requireE (0 < amount) .InvalidAmount
  requireE (st.is_funded = false) .AlreadyFunded
  requireE (¬ st.snrg_mint = zeroPubkey) .SnrgNotSet
  requireE (treasury_snrgtoken.mint = st.snrg_mint) .InvalidMint
  requireE (staking_vault.mint = st.snrg_mint) .InvalidMint
  requireE (amount ≤ treasury_snrgtoken.amount) .InsufficientBalance
  let (t, v) ← liftE (splTransfer treasury_snrgtoken staking_vault amount)
    .TokenProgramError
  pure ⟨{ st with is_funded := true, reward_reserve := amount }, t, v⟩

/-- `top_up_reserves` (FIX H-03): repeatable reserve top-up with checked
addition. -/
def top_up_reserves (st : Staking) (amount : Nat)
    (treasury_snrgtoken staking_vault : TokenAccount) :
    Except StakingError FundResult := do
  requireE (0 < amount) .InvalidAmount
  requireE (¬ st.snrg_mint = zeroPubkey) .SnrgNotSet
  requireE (treasury_snrgtoken.mint = st.snrg_mint) .InvalidMint
  requireE (staking_vault.mint = st.snrg_mint) .InvalidMint
  requireE (amount ≤ treasury_snrgtoken.amount) .InsufficientBalance
  requireE (st.reward_reserve + amount ≤ u64Max) .MathOverflow
  let (t, v) ← liftE (splTransfer treasury_snrgtoken staking_vault amount)
    .TokenProgramError
  pure ⟨{ st with reward_reserve := st.reward_reserve + amount }, t, v⟩

/-- Result of `stake`. -/
structure StakeResult where
  staking : Staking
  stake_account : StakeAccount
  user_snrgtoken : TokenAccount
  staking_vault : TokenAccount
deriving DecidableEq, Repr

/-- `stake`: checks the reward-rate table, computes the reward in basis
points with checked arithmetic, enforces the reserve solvency check
(FIX H-03), then transfers the principal into the vault.  The end-time
computation `duration as i64 * SECONDS_PER_DAY` is the one unchecked
multiply of the source; it is modelled with two's-complement wrapping. -/
def stake (st : Staking) (user : Pubkey) (amount duration : Nat)
    (user_snrgtoken staking_vault : TokenAccount) (now : Int) :
    Except StakingError StakeResult := do
  requireE (0 < amount) .InvalidAmount
  requireE (0 < duration) .InvalidDuration
  requireE (st.is_funded = true) .NotFunded
  requireE (st.paused = false) .Paused
  requireE (¬ st.snrg_mint = zeroPubkey) .SnrgNotSet
  requireE (user_snrgtoken.mint = st.snrg_mint) .InvalidMint
  requireE (staking_vault.mint = st.snrg_mint) .InvalidMint
  requireE (user_snrgtoken.owner = user) .InvalidOwner
  requireE (amount ≤ user_snrgtoken.amount) .InsufficientBalance
  let reward_bps ← liftE
    ((st.reward_rates.find? (fun r => r.duration = duration)).map RewardRate.bps)
    .InvalidDuration
  requireE (amount * reward_bps ≤ u64Max) .MathOverflow
  let reward := amount * reward_bps / BPS_DENOMINATOR
  requireE (st.promised_rewards + reward ≤ u64Max) .MathOverflow
  requireE (st.promised_rewards + reward ≤ st.reward_reserve) .InsufficientReserves
  let (u, v) ← liftE (splTransfer user_snrgtoken staking_vault amount)
    .TokenProgramError
  let end_time := now + wrapI64 (i64OfU64 duration * SECONDS_PER_DAY)
  requireE (i64Min ≤ end_time ∧ end_time ≤ i64Max) .MathOverflow
  pure ⟨{ st with promised_rewards := st.promised_rewards + reward },
        ⟨user, amount, reward, end_time, false⟩, u, v⟩

/-- Result of `withdraw`. -/
structure WithdrawResult where
  staking : Staking
  stake_account : StakeAccount
  staking_vault : TokenAccount
  user_snrgtoken : TokenAccount
deriving DecidableEq, Repr

/-- `withdraw`: full withdrawal after maturity; pays principal + reward and
decreases both `promised_rewards` and `reward_reserve` by the reward
(FIX H-03). -/
def withdraw (st : Staking) (stake_account : StakeAccount)
    (staking_vault user_snrgtoken : TokenAccount) (now : Int) :
    Except StakingError WithdrawResult := do
  requireE (stake_account.withdrawn = false) .AlreadyWithdrawn
  requireE (stake_account.end_time ≤ now) .NotMatured
  requireE (stake_account.amount + stake_account.reward ≤ u64Max) .MathOverflow
  let total := stake_account.amount + stake_account.reward
  requireE (total ≤ staking_vault.amount) .InsufficientBalance
  requireE (stake_account.reward ≤ st.promised_rewards) .MathOverflow
  requireE (stake_account.reward ≤ st.reward_reserve) .MathOverflow
  let (v, u) ← liftE (splTransfer staking_vault user_snrgtoken total)
    .TokenProgramError
  pure ⟨{ st with promised_rewards := st.promised_rewards - stake_account.reward,
                  reward_reserve := st.reward_reserve - stake_account.reward },
        { stake_account with withdrawn := true }, v, u⟩

/-- Result of `withdraw_early` / `emergency_withdraw`. -/
structure WithdrawEarlyResult where
  staking : Staking
  stake_account : StakeAccount
  staking_vault : TokenAccount
  treasury_snrgtoken : TokenAccount
  user_snrgtoken : TokenAccount
deriving DecidableEq, Repr

/-- `withdraw_early`: before maturity, 5% fee to treasury, remainder to the
staker; the reward is forfeited (`promised_rewards` decreases, the reserve
is untouched). -/
def withdraw_early (st : Staking) (stake_account : StakeAccount)
    (staking_vault treasury_snrgtoken user_snrgtoken : TokenAccount) (now : Int) :
    Except StakingError WithdrawEarlyResult := do
  requireE (stake_account.withdrawn = false) .AlreadyWithdrawn
  requireE (now < stake_account.end_time) .AlreadyMatured
  requireE (stake_account.amount * EARLY_WITHDRAWAL_FEE_BPS ≤ u64Max) .MathOverflow
  let fee := stake_account.amount * EARLY_WITHDRAWAL_FEE_BPS / BPS_DENOMINATOR
  requireE (fee ≤ stake_account.amount) .MathOverflow
  let return_amount := stake_account.amount - fee
  requireE (stake_account.amount ≤ staking_vault.amount) .InsufficientBalance
  requireE (stake_account.reward ≤ st.promised_rewards) .MathOverflow
  let (v1, t) ← liftE (splTransfer staking_vault treasury_snrgtoken fee)
    .TokenProgramError
  let (v2, u) ← liftE (splTransfer v1 user_snrgtoken return_amount)
    .TokenProgramError
  pure ⟨{ st with promised_rewards := st.promised_rewards - stake_account.reward },
        { stake_account with withdrawn := true }, v2, t, u⟩

/-- `emergency_withdraw`: any time, 10% fee; the reward is forfeited. -/
def emergency_withdraw (st : Staking) (stake_account : StakeAccount)
    (staking_vault treasury_snrgtoken user_snrgtoken : TokenAccount) :
    Except StakingError WithdrawEarlyResult := do
  requireE (stake_account.withdrawn = false) .AlreadyWithdrawn
  requireE (stake_account.amount * EMERGENCY_FEE_BPS ≤ u64Max) .MathOverflow
  let fee := stake_account.amount * EMERGENCY_FEE_BPS / BPS_DENOMINATOR
  requireE (fee ≤ stake_account.amount) .MathOverflow
  let return_amount := stake_account.amount - fee
  requireE (stake_account.amount ≤ staking_vault.amount) .InsufficientBalance
  requireE (stake_account.reward ≤ st.promised_rewards) .MathOverflow
  let (v1, t) ← liftE (splTransfer staking_vault treasury_snrgtoken fee)
    .TokenProgramError
  let (v2, u) ← liftE (splTransfer v1 user_snrgtoken return_amount)
    .TokenProgramError
  pure ⟨{ st with promised_rewards := st.promised_rewards - stake_account.reward },
        { stake_account with withdrawn := true }, v2, t, u⟩

/-- `pause`. -/
def pause (st : Staking) : Except StakingError Staking := do
  requireE (st.paused = false) .AlreadyPaused
  pure { st with paused := true }

/-- `unpause`. -/
def unpause (st : Staking) : Except StakingError Staking := do
  requireE (st.paused = true) .NotPaused
  pure { st with paused := false }

/-- One staking instruction together with the per-call environment it reads
(token accounts, stake record, clock); the environment is unconstrained, so
every on-chain sequence is covered. -/
inductive Op where
  | setMint (snrg_mint : Pubkey)
  | fund (amount : Nat) (treasury_snrgtoken staking_vault : TokenAccount)
  | topUp (amount : Nat) (treasury_snrgtoken staking_vault : TokenAccount)
  | stakeOp (user : Pubkey) (amount duration : Nat)
      (user_snrgtoken staking_vault : TokenAccount) (now : Int)
  | withdrawOp (stake_account : StakeAccount)
      (staking_vault user_snrgtoken : TokenAccount) (now : Int)
  | withdrawEarlyOp (stake_account : StakeAccount)
      (staking_vault treasury_snrgtoken user_snrgtoken : TokenAccount) (now : Int)
  | emergencyOp (stake_account : StakeAccount)
      (staking_vault treasury_snrgtoken user_snrgtoken : TokenAccount)
  | pauseOp
  | unpauseOp
deriving DecidableEq, Repr

/-- Effect of one instruction on the `Staking` account. -/
def stepStaking (st : Staking) : Op → Except StakingError Staking
  | .setMint m => set_snrg_mint st m
  | .fund a t v => (fund_contract st a t v).map FundResult.staking
  | .topUp a t v => (top_up_reserves st a t v).map FundResult.staking
  | .stakeOp u a d ut v now => (stake st u a d ut v now).map StakeResult.staking
  | .withdrawOp sa v ut now => (withdraw st sa v ut now).map WithdrawResult.staking
  | .withdrawEarlyOp sa v t ut now =>
      (withdraw_early st sa v t ut now).map WithdrawEarlyResult.staking
  | .emergencyOp sa v t ut =>
      (emergency_withdraw st sa v t ut).map WithdrawEarlyResult.staking
  | .pauseOp => pause st
  | .unpauseOp => unpause st

/-- Transactional commit: a failed instruction rolls back, leaving the
account unchanged. -/
def commitStaking (st : Staking) (op : Op) : Staking :=
  match stepStaking st op with
  | .ok s => s
  | .error _ => st

/-- Run a sequence of staking instructions with transactional semantics. -/
def runStaking (st : Staking) (ops : List Op) : Staking :=
  ops.foldl commitStaking st

/-- The inductive invariant: solvency, and no promises before funding
(`stake` requires `is_funded`, so the unfunded state owes nothing). -/
def StakingInv (st : Staking) : Prop :=
  st.promised_rewards ≤ st.reward_reserve ∧
    (st.is_funded = false → st.promised_rewards = 0)

lemma set_snrg_mint_ok {st m s'} (h : set_snrg_mint st m = .ok s') :
    s' = { st with snrg_mint := m } := by
  unfold set_snrg_mint at h
  simp only [requireE_bind_ok, pure_eq_ok] at h
  exact h.2.2.symm

lemma fund_contract_ok {st a t v r} (h : fund_contract st a t v = .ok r) :
    st.is_funded = false ∧
      r.staking = { st with is_funded := true, reward_reserve := a } := by
  unfold fund_contract at h
  simp only [requireE_bind_ok, liftE_bind_ok, pure_eq_ok] at h
  obtain ⟨-, hf, -, -, -, -, ⟨t', v'⟩, -, hr⟩ := h
  exact ⟨hf, by rw [← hr]⟩

lemma top_up_reserves_ok {st a t v r} (h : top_up_reserves st a t v = .ok r) :
    r.staking = { st with reward_reserve := st.reward_reserve + a } := by
  unfold top_up_reserves at h
  simp only [requireE_bind_ok, liftE_bind_ok, pure_eq_ok] at h
  obtain ⟨-, -, -, -, -, -, ⟨t', v'⟩, -, hr⟩ := h
  rw [← hr]

lemma stake_ok {st u a d ut v now r} (h : stake st u a d ut v now = .ok r) :
    st.is_funded = true ∧ r.staking.is_funded = st.is_funded ∧
      r.staking.reward_reserve = st.reward_reserve ∧
      st.promised_rewards ≤ r.staking.promised_rewards ∧
      r.staking.promised_rewards ≤ st.reward_reserve := by
  unfold stake at h
  simp only [requireE_bind_ok, liftE_bind_ok, pure_eq_ok] at h
  obtain ⟨-, -, hf, -, -, -, -, -, -, bps, -, -, hov, hres, ⟨u', v'⟩, -, -, hr⟩ := h
  subst hr
  exact ⟨hf, by simp [hf], by simp, by simp, by simpa using hres⟩

lemma withdraw_ok {st sa v u now r} (h : withdraw st sa v u now = .ok r) :
    sa.reward ≤ st.promised_rewards ∧ sa.reward ≤ st.reward_reserve ∧
      r.staking.is_funded = st.is_funded ∧
      r.staking.promised_rewards = st.promised_rewards - sa.reward ∧
      r.staking.reward_reserve = st.reward_reserve - sa.reward := by
  unfold withdraw at h
  simp only [requireE_bind_ok, liftE_bind_ok, pure_eq_ok] at h
  obtain ⟨-, -, -, -, hp, hres, ⟨v', u'⟩, -, hr⟩ := h
  subst hr
  exact ⟨hp, hres, by simp, by simp, by simp⟩

lemma withdraw_early_ok {st sa v t u now r} (h : withdraw_early st sa v t u now = .ok r) :
    sa.reward ≤ st.promised_rewards ∧
      r.staking.is_funded = st.is_funded ∧
      r.staking.promised_rewards = st.promised_rewards - sa.reward ∧
      r.staking.reward_reserve = st.reward_reserve := by
  unfold withdraw_early at h
  simp only [requireE_bind_ok, liftE_bind_ok, pure_eq_ok] at h
  obtain ⟨-, -, -, -, -, hp, ⟨v1, t'⟩, -, ⟨v2, u'⟩, -, hr⟩ := h
  subst hr
  exact ⟨hp, by simp, by simp, by simp⟩

lemma emergency_withdraw_ok {st sa v t u r} (h : emergency_withdraw st sa v t u = .ok r) :
    sa.reward ≤ st.promised_rewards ∧
      r.staking.is_funded = st.is_funded ∧
      r.staking.promised_rewards = st.promised_rewards - sa.reward ∧
      r.staking.reward_reserve = st.reward_reserve := by
  unfold emergency_withdraw at h
  simp only [requireE_bind_ok, liftE_bind_ok, pure_eq_ok] at h
  obtain ⟨-, -, -, -, hp, ⟨v1, t'⟩, -, ⟨v2, u'⟩, -, hr⟩ := h
  subst hr
  exact ⟨hp, by simp, by simp, by simp⟩

lemma pause_ok {st s'} (h : pause st = .ok s') : s' = { st with paused := true } := by
  unfold pause at h
  simp only [requireE_bind_ok, pure_eq_ok] at h
  exact h.2.symm

lemma unpause_ok {st s'} (h : unpause st = .ok s') : s' = { st with paused := false } := by
  unfold unpause at h
  simp only [requireE_bind_ok, pure_eq_ok] at h
  exact h.2.symm

lemma commit_preserves_inv (st : Staking) (op : Op) (h : StakingInv st) :
    StakingInv (commitStaking st op) := by
  obtain ⟨h1, h2⟩ := h
  unfold commitStaking
  cases hstep : stepStaking st op with
  | error e => exact ⟨h1, h2⟩
  | ok s =>
      show StakingInv s
      cases op <;> simp only [stepStaking] at hstep
      case setMint m =>
          rw [set_snrg_mint_ok hstep]; exact ⟨h1, fun hf => h2 hf⟩
      case fund a t v =>
          obtain ⟨r, hr, hs⟩ := map_ok hstep
          obtain ⟨hnf, hst⟩ := fund_contract_ok hr
          subst hs; rw [hst]
          refine ⟨?_, by simp⟩
          simp [h2 hnf]
      case topUp a t v =>
          obtain ⟨r, hr, hs⟩ := map_ok hstep
          rw [← hs, top_up_reserves_ok hr]
          refine ⟨by simp; omega, fun hf => h2 (by simpa using hf)⟩
      case stakeOp u a d ut v now =>
          obtain ⟨r, hr, hs⟩ := map_ok hstep
          obtain ⟨hf, hf', hres, hmono, hpr⟩ := stake_ok hr
          subst hs
          exact ⟨hres ▸ hpr, fun hc => by rw [hf', hf] at hc; cases hc⟩
      case withdrawOp sa v ut now =>
          obtain ⟨r, hr, hs⟩ := map_ok hstep
          obtain ⟨ha, hb, hf, hpr, hres⟩ := withdraw_ok hr
          subst hs
          refine ⟨by omega, fun hc => ?_⟩
          rw [hf] at hc
          have := h2 hc
          omega
      case withdrawEarlyOp sa v t ut now =>
          obtain ⟨r, hr, hs⟩ := map_ok hstep
          obtain ⟨ha, hf, hpr, hres⟩ := withdraw_early_ok hr
          subst hs
          refine ⟨by omega, fun hc => ?_⟩
          rw [hf] at hc
          have := h2 hc
          omega
      case emergencyOp sa v t ut =>
          obtain ⟨r, hr, hs⟩ := map_ok hstep
          obtain ⟨ha, hf, hpr, hres⟩ := emergency_withdraw_ok hr
          subst hs
          refine ⟨by omega, fun hc => ?_⟩
          rw [hf] at hc
          have := h2 hc
          omega
      case pauseOp => rw [pause_ok hstep]; exact ⟨h1, h2⟩
      case unpauseOp => rw [unpause_ok hstep]; exact ⟨h1, h2⟩

lemma run_preserves_inv (st : Staking) (ops : List Op) (h : StakingInv st) :
    StakingInv (runStaking st ops) := by
  induction ops generalizing st with
  | nil => exact h
  | cons op rest ih =>
      exact ih (commitStaking st op) (commit_preserves_inv st op h)

/-- C1: for every sequence of staking operations executed (with
transactional rollback of failures) from the freshly initialized state, the
`Staking` account satisfies `reward_reserve >= promised_rewards` after each
committed operation — the state after any prefix of operations is an
instance of this statement. -/
theorem c1_solvency_invariant (treasury : Pubkey) (ops : List Op) :
    (runStaking (initStaking treasury) ops).promised_rewards ≤
      (runStaking (initStaking treasury) ops).reward_reserve := by
  refine (run_preserves_inv _ ops ?_).1
  exact ⟨Nat.le_refl 0, fun _ => rfl⟩

/-- C7: `withdraw_early` on a live, unmatured stake of principal 1,000,000
charges fee 50,000 to the treasury, returns 950,000 to the staker,
decreases `promised_rewards` by exactly the stake's reward and leaves
`reward_reserve` unchanged. -/
theorem c7_withdraw_early_fee (st : Staking) (sa : StakeAccount)
    (v t u : TokenAccount) (now : Int)
    (hw : sa.withdrawn = false) (hm : now < sa.end_time)
    (hp : sa.amount = 1000000) (hr : sa.reward ≤ st.promised_rewards)
    (hv : 1000000 ≤ v.amount)
    (hmt : v.mint = t.mint) (hmu : v.mint = u.mint)
    (hot : t.amount + 50000 ≤ u64Max) (hou : u.amount + 950000 ≤ u64Max) :
    ∃ r, withdraw_early st sa v t u now = .ok r ∧
      r.treasury_snrgtoken.amount = t.amount + 50000 ∧
      r.user_snrgtoken.amount = u.amount + 950000 ∧
      r.staking.promised_rewards = st.promised_rewards - sa.reward ∧
      r.staking.reward_reserve = st.reward_reserve := by
  have h50 : (50000 : Nat) ≤ v.amount := by omega
  have h95 : (950000 : Nat) ≤ v.amount - 50000 := by omega
  have hfeeN : (1000000 : Nat) * EARLY_WITHDRAWAL_FEE_BPS / BPS_DENOMINATOR = 50000 := rfl
  have hsubN : (1000000 : Nat) - 50000 = 950000 := rfl
  have hsp1 : splTransfer v t 50000 =
      some ({ v with amount := v.amount - 50000 },
            { t with amount := t.amount + 50000 }) := by
    unfold splTransfer
    rw [if_pos ⟨hmt, h50, hot⟩]
  have hsp2 : splTransfer { v with amount := v.amount - 50000 } u 950000 =
      some ({ v with amount := v.amount - 50000 - 950000 },
            { u with amount := u.amount + 950000 }) := by
    unfold splTransfer
    rw [if_pos ⟨hmu, h95, hou⟩]
  refine ⟨⟨{ st with promised_rewards := st.promised_rewards - sa.reward },
           { sa with withdrawn := true },
           { v with amount := v.amount - 50000 - 950000 },
           { t with amount := t.amount + 50000 },
           { u with amount := u.amount + 950000 }⟩, ?_, rfl, rfl, rfl, rfl⟩
  unfold withdraw_early
  simp only [hp, hfeeN, hsubN, requireE_bind_ok, liftE_bind_ok, pure_eq_ok]
  refine ⟨hw, hm, by decide, by decide, by omega, hr, _, hsp1, _, hsp2, rfl⟩

/-- Closed witness for C7 at concrete inputs. -/
theorem c7_witness :
    ∃ r, withdraw_early
        ⟨[2], [3], true, false, 100, 50, []⟩
        ⟨[1], 1000000, 50, 10, false⟩
        ⟨[2], [9], 2000000⟩ ⟨[2], [3], 7⟩ ⟨[2], [1], 11⟩ 5 = .ok r ∧
      r.treasury_snrgtoken.amount = 7 + 50000 ∧
      r.user_snrgtoken.amount = 11 + 950000 ∧
      r.staking.promised_rewards = 50 - 50 ∧
      r.staking.reward_reserve = 100 :=
  c7_withdraw_early_fee ⟨[2], [3], true, false, 100, 50, []⟩
    ⟨[1], 1000000, 50, 10, false⟩ ⟨[2], [9], 2000000⟩ ⟨[2], [3], 7⟩
    ⟨[2], [1], 11⟩ 5 rfl (by decide) rfl (by decide) (by decide) rfl rfl
    (by decide) (by decide)

end SnrgStaking

namespace SnrgPresale

/-! Embedding of `src/solana/programs/snrg_presale/src/lib.rs`, the variant
whose `Presale` account keeps a global `used_nonces: Vec<u64>` and whose
rate limiting lives in `check_and_update_rate_limits`. -/

/-- `PresaleError` of this variant, plus `TokenProgramError` for a failure
propagated from the SPL token CPI. -/
inductive PresaleError where
  | InvalidSigner
  | SameSigner
  | SameState
  | InvalidToken
  | CannotUseSnrgAsPayment
  | TokenAlreadySupported
  | TooManyTokens
  | InvalidAmount
  | InvalidNonce
  | InvalidSignature
  | InsufficientPayment
  | InvalidMint
  | InvalidOwner
  | InsufficientBalance
  | Closed
  | NonceUsed
  | UnsupportedToken
  | AmountTooLow
  | AmountTooHigh
  | PurchaseTooSoon
  | DailyLimitExceeded
  | Paused
  | NotPaused
  | AlreadyPaused
  | TokenProgramError
deriving DecidableEq, Repr

/-- The `Presale` account state.  The source field `open` is a Lean keyword
and is rendered `openFlag`. -/
structure Presale where
  snrg_mint : Pubkey
  treasury : Pubkey
  signer : Pubkey
  openFlag : Bool
  paused : Bool
  max_purchase_amount : Nat
  used_nonces : List Nat
  supported_tokens : List Pubkey
deriving DecidableEq, Repr

/-- The per-buyer `BuyerState` account. -/
structure BuyerState where
  last_purchase_time : Int
  purchase_count_today : Nat
  daily_purchase_reset : Int
deriving DecidableEq, Repr

def MIN_PURCHASE_AMOUNT : Nat := 250 * 1000000000

def PURCHASE_COOLDOWN : Int := 300

def MAX_PURCHASES_PER_DAY : Nat := 10

def SECONDS_PER_DAY : Int := 86400

/-- Stand-in for this program's `crate::ID` (a fixed 32-byte constant whose
concrete value the claims do not depend on). -/
def presaleProgramId : Pubkey := List.replicate 31 0 ++ [1]

/-- `check_nonce`: the source condition is
`nonce > 0 && nonce <= u128::MAX as u64`, whose cast truncates to
`u64::MAX`. -/
def check_nonce (nonce : Nat) : Except PresaleError Unit :=
  requireE (0 < nonce ∧ nonce ≤ u64Max) .InvalidNonce

/-- `check_purchase_limits`. -/
def check_purchase_limits (snrg_amount max_purchase_amount : Nat) :
    Except PresaleError Unit := do
  requireE (MIN_PURCHASE_AMOUNT ≤ snrg_amount) .AmountTooLow
  requireE (snrg_amount ≤ max_purchase_amount) .AmountTooHigh

/-- The daily-counter reset block inside `check_and_update_rate_limits`. -/
def resetDaily (b : BuyerState) (now : Int) : BuyerState :=
  if b.daily_purchase_reset + SECONDS_PER_DAY ≤ now then
    { b with purchase_count_today := 0, daily_purchase_reset := now }
  else b

/-- `check_and_update_rate_limits`: cooldown, daily window reset, daily cap,
then the in-place update of the buyer state. -/
def check_and_update_rate_limits (b : BuyerState) (now : Int) :
    Except PresaleError BuyerState := do
  requireE (b.last_purchase_time + PURCHASE_COOLDOWN ≤ now) .PurchaseTooSoon
  let b1 := resetDaily b now
  requireE (b1.purchase_count_today < MAX_PURCHASES_PER_DAY) .DailyLimitExceeded
  pure { b1 with last_purchase_time := now,
                 purchase_count_today := b1.purchase_count_today + 1 }

/-- `build_message_hash`: keccak over
`buyer ‖ payment_token ‖ le(payment_amount) ‖ le(snrg_amount) ‖ le(nonce) ‖ program_id`;
the keccak collaborator is a parameter. -/
def build_message_hash (keccak : List Nat → List Nat)
    (buyer payment_token : Pubkey) (payment_amount snrg_amount nonce : Nat) :
    List Nat :=
  keccak (buyer ++ payment_token ++ leBytes 8 payment_amount ++
    leBytes 8 snrg_amount ++ leBytes 8 nonce ++ presaleProgramId)

/-- `verify_signature` of this variant: a production stub that only checks
the signature length (the message and signer are otherwise unused). -/
def verify_signature (message : List Nat) (signature : List Nat) (signer : Pubkey) :
    Except PresaleError Unit :=
  requireE (signature.length = 64) .InvalidSignature

/-- Result of `buy_with_native`. -/
structure BuyNativeResult where
  presale : Presale
  buyer_state : BuyerState
  treasury_snrgtoken : TokenAccount
  buyer_snrgtoken : TokenAccount
deriving DecidableEq, Repr

/-- `buy_with_native`. -/
def buy_with_native (keccak : List Nat → List Nat) (p : Presale) (b : BuyerState)
    (buyer : Pubkey) (snrg_amount payment_amount nonce : Nat)
    (signature : List Nat) (treasury_snrgtoken buyer_snrgtoken : TokenAccount)
    (now : Int) : Except PresaleError BuyNativeResult := do
  requireE (0 < snrg_amount) .InvalidAmount
  requireE (0 < payment_amount) .InvalidAmount
  requireE (signature.length = 64) .InvalidSignature
  requireE (p.openFlag = true) .Closed
  requireE (p.paused = false) .Paused
  check_nonce nonce
  check_purchase_limits snrg_amount p.max_purchase_amount
  let b' ← check_and_update_rate_limits b now
  requireE (¬ nonce ∈ p.used_nonces) .NonceUsed
  let p' := { p with used_nonces := p.used_nonces ++ [nonce] }
  verify_signature
    (build_message_hash keccak buyer zeroPubkey payment_amount snrg_amount nonce)
    signature p'.signer
  requireE (treasury_snrgtoken.mint = p'.snrg_mint) .InvalidMint
  requireE (buyer_snrgtoken.mint = p'.snrg_mint) .InvalidMint
  requireE (buyer_snrgtoken.owner = buyer) .InvalidOwner
  requireE (snrg_amount ≤ treasury_snrgtoken.amount) .InsufficientBalance
  let (t, bt) ← liftE (splTransfer treasury_snrgtoken buyer_snrgtoken snrg_amount)
    .TokenProgramError
  pure ⟨p', b', t, bt⟩

/-- Result of `buy_with_token`. -/
structure BuyTokenResult where
  presale : Presale
  buyer_state : BuyerState
  buyer_payment_token : TokenAccount
  treasury_payment_token : TokenAccount
  treasury_snrgtoken : TokenAccount
  buyer_snrgtoken : TokenAccount
deriving DecidableEq, Repr

/-- `buy_with_token`. -/
def buy_with_token (keccak : List Nat → List Nat) (p : Presale) (b : BuyerState)
    (buyer payment_mint : Pubkey) (payment_amount snrg_amount nonce : Nat)
    (signature : List Nat)
    (buyer_payment_token treasury_payment_token
      treasury_snrgtoken buyer_snrgtoken : TokenAccount)
    (now : Int) : Except PresaleError BuyTokenResult := do
  requireE (0 < payment_amount) .InvalidAmount
  requireE (0 < snrg_amount) .InvalidAmount
  requireE (signature.length = 64) .InvalidSignature
  requireE (p.openFlag = true) .Closed
  requireE (p.paused = false) .Paused
  check_nonce nonce
  check_purchase_limits snrg_amount p.max_purchase_amount
  let b' ← check_and_update_rate_limits b now
  requireE (payment_mint ∈ p.supported_tokens) .UnsupportedToken
  requireE (¬ nonce ∈ p.used_nonces) .NonceUsed
  let p' := { p with used_nonces := p.used_nonces ++ [nonce] }
  verify_signature
    (build_message_hash keccak buyer payment_mint payment_amount snrg_amount nonce)
    signature p'.signer
  requireE (buyer_payment_token.mint = payment_mint) .InvalidMint
  requireE (treasury_payment_token.mint = payment_mint) .InvalidMint
  requireE (treasury_snrgtoken.mint = p'.snrg_mint) .InvalidMint
  requireE (buyer_snrgtoken.mint = p'.snrg_mint) .InvalidMint
  requireE (buyer_payment_token.owner = buyer) .InvalidOwner
  requireE (buyer_snrgtoken.owner = buyer) .InvalidOwner
  requireE (payment_amount ≤ buyer_payment_token.amount) .InsufficientBalance
  requireE (snrg_amount ≤ treasury_snrgtoken.amount) .InsufficientBalance
  let (bp, tp) ← liftE
    (splTransfer buyer_payment_token treasury_payment_token payment_amount)
    .TokenProgramError
  let (ts, bs) ← liftE (splTransfer treasury_snrgtoken buyer_snrgtoken snrg_amount)
    .TokenProgramError
  pure ⟨p', b', bp, tp, ts, bs⟩

/-- A purchase attempt through either entry point, carrying its per-call
environment (buyer, amounts, nonce, signature, buyer state, token accounts,
clock). -/
inductive Attempt where
  | native (buyer : Pubkey) (snrg_amount payment_amount nonce : Nat)
      (signature : List Nat) (buyer_state : BuyerState)
      (treasury_snrgtoken buyer_snrgtoken : TokenAccount) (now : Int)
  | tokenBuy (buyer payment_mint : Pubkey) (payment_amount snrg_amount nonce : Nat)
      (signature : List Nat) (buyer_state : BuyerState)
      (buyer_payment_token treasury_payment_token
        treasury_snrgtoken buyer_snrgtoken : TokenAccount) (now : Int)
deriving DecidableEq, Repr

/-- The nonce an attempt presents. -/
def Attempt.nonce : Attempt → Nat
  | .native _ _ _ n _ _ _ _ _ => n
  | .tokenBuy _ _ _ _ n _ _ _ _ _ _ _ => n

/-- The buyer state an attempt executes against. -/
def Attempt.bstate : Attempt → BuyerState
  | .native _ _ _ _ _ bs _ _ _ => bs
  | .tokenBuy _ _ _ _ _ _ bs _ _ _ _ _ => bs

/-- The clock value an attempt executes at. -/
def Attempt.time : Attempt → Int
  | .native _ _ _ _ _ _ _ _ now => now
  | .tokenBuy _ _ _ _ _ _ _ _ _ _ _ now => now

/-- Run one attempt, projecting the presale and buyer state it commits. -/
def stepBuy (keccak : List Nat → List Nat) (p : Presale) :
    Attempt → Except PresaleError (Presale × BuyerState)
  | .native buyer s pa n sig bs t bt now =>
      (buy_with_native keccak p bs buyer s pa n sig t bt now).map
        (fun r => (r.presale, r.buyer_state))
  | .tokenBuy buyer pm pa s n sig bs bp tp ts bsn now =>
      (buy_with_token keccak p bs buyer pm pa s n sig bp tp ts bsn now).map
        (fun r => (r.presale, r.buyer_state))

/-- Transactional commit of one attempt on the presale account. -/
def commitBuy (keccak : List Nat → List Nat) (p : Presale) (a : Attempt) : Presale :=
  match stepBuy keccak p a with
  | .ok pr => pr.1
  | .error _ => p

/-- Number of successful purchases carrying nonce `n` in a run of attempts
with transactional semantics. -/
def succCount (keccak : List Nat → List Nat) (p : Presale) :
    List Attempt → Nat → Nat
  | [], _ => 0
  | a :: rest, n =>
    match stepBuy keccak p a with
    | .ok pr => (if a.nonce = n then 1 else 0) + succCount keccak pr.1 rest n
    | .error _ => succCount keccak p rest n

lemma buy_with_native_ok {k p b buyer s pa n sig t bt now r}
    (h : buy_with_native k p b buyer s pa n sig t bt now = .ok r) :
    ¬ n ∈ p.used_nonces ∧ r.presale.used_nonces = p.used_nonces ++ [n] := by
  unfold buy_with_native check_nonce check_purchase_limits
    check_and_update_rate_limits verify_signature at h
  simp only [bind_assoc, pure_bind, requireE_bind_ok, liftE_bind_ok,
    pure_eq_ok] at h
  obtain ⟨-, -, -, -, -, -, -, -, -, -, hnn, -, -, -, -, -, ⟨t', bt'⟩, -, hr⟩ := h
  subst hr
  exact ⟨hnn, by simp⟩

lemma buy_with_token_ok {k p b buyer pm pa s n sig bp tp ts bsn now r}
    (h : buy_with_token k p b buyer pm pa s n sig bp tp ts bsn now = .ok r) :
    ¬ n ∈ p.used_nonces ∧ r.presale.used_nonces = p.used_nonces ++ [n] := by
  unfold buy_with_token check_nonce check_purchase_limits
    check_and_update_rate_limits verify_signature at h
  simp only [bind_assoc, pure_bind, requireE_bind_ok, liftE_bind_ok,
    pure_eq_ok] at h
  obtain ⟨-, -, -, -, -, -, -, -, -, -, -, hnn, -, -, -, -, -, -, -, -, -,
    ⟨bp', tp'⟩, -, ⟨ts', bs'⟩, -, hr⟩ := h
  subst hr
  exact ⟨hnn, by simp⟩

lemma stepBuy_ok {k p a pr} (h : stepBuy k p a = .ok pr) :
    ¬ a.nonce ∈ p.used_nonces ∧ pr.1.used_nonces = p.used_nonces ++ [a.nonce] := by
  cases a with
  | native buyer s pa n sig bs t bt now =>
      obtain ⟨r, hr, hpr⟩ := map_ok h
      obtain ⟨h1, h2⟩ := buy_with_native_ok hr
      exact ⟨h1, by rw [← hpr]; exact h2⟩
  | tokenBuy buyer pm pa s n sig bs bp tp ts bsn now =>
      obtain ⟨r, hr, hpr⟩ := map_ok h
      obtain ⟨h1, h2⟩ := buy_with_token_ok hr
      exact ⟨h1, by rw [← hpr]; exact h2⟩

lemma succCount_of_used {k n} :
    ∀ (l : List Attempt) (p : Presale), n ∈ p.used_nonces →
      succCount k p l n = 0 := by
  intro l
  induction l with
  | nil => intro p _; rfl
  | cons a rest ih =>
      intro p hn
      unfold succCount
      cases hstep : stepBuy k p a with
      | error e => exact ih p hn
      | ok pr =>
          obtain ⟨hnot, hused⟩ := stepBuy_ok hstep
          have hne : a.nonce ≠ n := fun hc => hnot (hc ▸ hn)
          simp [hne, ih pr.1 (by rw [hused]; exact List.mem_append_left _ hn)]

lemma succCount_le_one {k n} :
    ∀ (l : List Attempt) (p : Presale), ¬ n ∈ p.used_nonces →
      succCount k p l n ≤ 1 := by
  intro l
  induction l with
  | nil => intro p _; exact Nat.zero_le 1
  | cons a rest ih =>
      intro p hn
      unfold succCount
      cases hstep : stepBuy k p a with
      | error e => exact ih p hn
      | ok pr =>
          obtain ⟨hnot, hused⟩ := stepBuy_ok hstep
          by_cases hne : a.nonce = n
          · have h0 : succCount k pr.1 rest n = 0 := by
              refine succCount_of_used rest pr.1 ?_
              rw [hused, ← hne]
              exact List.mem_append_right _ (List.mem_singleton.mpr rfl)
            simp [hne, h0]
          · have hmem : ¬ n ∈ pr.1.used_nonces := by
              rw [hused]
              intro hc
              rcases List.mem_append.mp hc with hc1 | hc2
              · exact hn hc1
              · exact hne (List.mem_singleton.mp hc2).symm
            simpa [hne] using ih pr.1 hmem

/-- All checks of a purchase that precede the replay (`used_nonces`) check:
amounts, signature length, open/paused, nonce range, purchase bounds, the
rate limits, and (token path) the payment-asset allow-list. -/
def PreReplayChecks (p : Presale) : Attempt → Prop
  | .native _ s pa n sig bs _ _ now =>
      0 < s ∧ 0 < pa ∧ sig.length = 64 ∧ p.openFlag = true ∧ p.paused = false ∧
      (0 < n ∧ n ≤ u64Max) ∧ MIN_PURCHASE_AMOUNT ≤ s ∧ s ≤ p.max_purchase_amount ∧
      bs.last_purchase_time + PURCHASE_COOLDOWN ≤ now ∧
      (resetDaily bs now).purchase_count_today < MAX_PURCHASES_PER_DAY
  | .tokenBuy _ pm pa s n sig bs _ _ _ _ now =>
      0 < pa ∧ 0 < s ∧ sig.length = 64 ∧ p.openFlag = true ∧ p.paused = false ∧
      (0 < n ∧ n ≤ u64Max) ∧ MIN_PURCHASE_AMOUNT ≤ s ∧ s ≤ p.max_purchase_amount ∧
      bs.last_purchase_time + PURCHASE_COOLDOWN ≤ now ∧
      (resetDaily bs now).purchase_count_today < MAX_PURCHASES_PER_DAY ∧
      pm ∈ p.supported_tokens

lemma stepBuy_replay {k : List Nat → List Nat} {p : Presale} {a : Attempt}
    (hpre : PreReplayChecks p a) (hn : a.nonce ∈ p.used_nonces) :
    stepBuy k p a = .error .NonceUsed := by
  cases a with
  | native buyer s pa n sig bs t bt now =>
      obtain ⟨h1, h2, h3, h4, h5, h6, h7, h8, h9, h10⟩ := hpre
      have hn' : n ∈ p.used_nonces := hn
      simp only [stepBuy, buy_with_native, check_nonce, check_purchase_limits,
        check_and_update_rate_limits, requireE_pos h1, requireE_pos h2,
        requireE_pos h3, requireE_pos h4, requireE_pos h5, requireE_pos h6,
        requireE_pos h7, requireE_pos h8, requireE_pos h9, requireE_pos h10,
        ok_bind, pure_bind, requireE_neg (not_not_intro hn'), error_bind,
        map_error]
  | tokenBuy buyer pm pa s n sig bs bp tp ts bsn now =>
      obtain ⟨h1, h2, h3, h4, h5, h6, h7, h8, h9, h10, h11⟩ := hpre
      have hn' : n ∈ p.used_nonces := hn
      simp only [stepBuy, buy_with_token, check_nonce, check_purchase_limits,
        check_and_update_rate_limits, requireE_pos h1, requireE_pos h2,
        requireE_pos h3, requireE_pos h4, requireE_pos h5, requireE_pos h6,
        requireE_pos h7, requireE_pos h8, requireE_pos h9, requireE_pos h10,
        requireE_pos h11, ok_bind, pure_bind, requireE_neg (not_not_intro hn'),
        error_bind, map_error]

/-- C2 (amended): a nonce is consumed by at most one successful purchase
across both entry points; a second attempt with the same nonce never
succeeds; when every check preceding the replay check passes, the failure
is precisely the `NonceUsed` replay error; and any failed attempt commits
nothing (transactional rollback). -/
theorem c2_nonce_replay (k : List Nat → List Nat) :
    (∀ (p : Presale) (l : List Attempt) (n : Nat),
        ¬ n ∈ p.used_nonces → succCount k p l n ≤ 1) ∧
    (∀ (p : Presale) (a : Attempt) (pr : Presale × BuyerState),
        a.nonce ∈ p.used_nonces → stepBuy k p a ≠ .ok pr) ∧
    (∀ (p : Presale) (a : Attempt), PreReplayChecks p a →
        a.nonce ∈ p.used_nonces → stepBuy k p a = .error .NonceUsed) ∧
    (∀ (p : Presale) (a : Attempt) (e : PresaleError),
        stepBuy k p a = .error e → commitBuy k p a = p) := by
  refine ⟨fun p l n hn => succCount_le_one l p hn, ?_,
    fun p a hpre hn => stepBuy_replay hpre hn, ?_⟩
  · intro p a pr hm hstep
    exact (stepBuy_ok hstep).1 hm
  · intro p a e hstep
    unfold commitBuy
    rw [hstep]

/-- Counterexample for C2 as literally stated: after a successful purchase
with nonce 7, a second attempt with nonce 7 but `snrg_amount = 0` fails
with `InvalidAmount`, not with the `NonceUsed` replay error. -/
theorem c2_counterexample :
    (Attempt.native [1] 0 1 7 (List.replicate 64 0) ⟨0, 0, 0⟩
        ⟨[2], [9], 0⟩ ⟨[2], [1], 0⟩ 86700).nonce =
      (Attempt.native [1] 250000000000 1 7 (List.replicate 64 0) ⟨0, 0, 0⟩
        ⟨[2], [9], 250000000000⟩ ⟨[2], [1], 0⟩ 86400).nonce ∧
    (∃ pr, stepBuy (fun _ => [])
        ⟨[2], [3], [4], true, false, 10000000000000000, [], []⟩
        (.native [1] 250000000000 1 7 (List.replicate 64 0) ⟨0, 0, 0⟩
          ⟨[2], [9], 250000000000⟩ ⟨[2], [1], 0⟩ 86400) = .ok pr) ∧
    stepBuy (fun _ => [])
        (commitBuy (fun _ => [])
          ⟨[2], [3], [4], true, false, 10000000000000000, [], []⟩
          (.native [1] 250000000000 1 7 (List.replicate 64 0) ⟨0, 0, 0⟩
            ⟨[2], [9], 250000000000⟩ ⟨[2], [1], 0⟩ 86400))
        (.native [1] 0 1 7 (List.replicate 64 0) ⟨0, 0, 0⟩
          ⟨[2], [9], 0⟩ ⟨[2], [1], 0⟩ 86700) = .error .InvalidAmount ∧
    PresaleError.InvalidAmount ≠ PresaleError.NonceUsed :=
  ⟨rfl, ⟨_, rfl⟩, rfl, by decide⟩

/-- Closed witness for C2 (amended) at concrete inputs: a run on the empty
nonce set, and a replayed nonce rejected with `NonceUsed`. -/
theorem c2_witness :
    succCount (fun _ => [])
        ⟨[2], [3], [4], true, false, 10000000000000000, [], []⟩ [] 7 ≤ 1 ∧
    stepBuy (fun _ => [])
        ⟨[2], [3], [4], true, false, 10000000000000000, [7], []⟩
        (.native [1] 250000000000 1 7 (List.replicate 64 0) ⟨0, 0, 0⟩
          ⟨[2], [9], 250000000000⟩ ⟨[2], [1], 0⟩ 86400) = .error .NonceUsed ∧
    commitBuy (fun _ => [])
        ⟨[2], [3], [4], false, false, 10000000000000000, [], []⟩
        (.native [1] 250000000000 1 7 (List.replicate 64 0) ⟨0, 0, 0⟩
          ⟨[2], [9], 250000000000⟩ ⟨[2], [1], 0⟩ 86400) =
      ⟨[2], [3], [4], false, false, 10000000000000000, [], []⟩ := by
  refine ⟨(c2_nonce_replay (fun _ => [])).1 _ [] 7 (by decide),
    (c2_nonce_replay (fun _ => [])).2.2.1 _ _ ?_ (by decide),
    (c2_nonce_replay (fun _ => [])).2.2.2 _ _ .Closed rfl⟩
  unfold PreReplayChecks resetDaily
  decide

lemma resetDaily_due {b : BuyerState} {now : Int}
    (h : b.daily_purchase_reset + SECONDS_PER_DAY ≤ now) :
    resetDaily b now =
      { b with purchase_count_today := 0, daily_purchase_reset := now } := by
  unfold resetDaily
  rw [if_pos h]

lemma resetDaily_skip {b : BuyerState} {now : Int}
    (h : ¬ b.daily_purchase_reset + SECONDS_PER_DAY ≤ now) :
    resetDaily b now = b := by
  unfold resetDaily
  rw [if_neg h]

/-- The checks of a purchase that strictly precede the rate-limit check. -/
def PreRateChecks (p : Presale) : Attempt → Prop
  | .native _ s pa n sig _ _ _ _ =>
      0 < s ∧ 0 < pa ∧ sig.length = 64 ∧ p.openFlag = true ∧ p.paused = false ∧
      (0 < n ∧ n ≤ u64Max) ∧ MIN_PURCHASE_AMOUNT ≤ s ∧ s ≤ p.max_purchase_amount
  | .tokenBuy _ _ pa s n sig _ _ _ _ _ _ =>
      0 < pa ∧ 0 < s ∧ sig.length = 64 ∧ p.openFlag = true ∧ p.paused = false ∧
      (0 < n ∧ n ≤ u64Max) ∧ MIN_PURCHASE_AMOUNT ≤ s ∧ s ≤ p.max_purchase_amount

/-- Every check of a purchase other than the two rate-limit conditions
(including the conditions under which the SPL transfers succeed). -/
def NonRateChecks (p : Presale) : Attempt → Prop
  | .native buyer s pa n sig _ t bt _ =>
      0 < s ∧ 0 < pa ∧ sig.length = 64 ∧ p.openFlag = true ∧ p.paused = false ∧
      (0 < n ∧ n ≤ u64Max) ∧ MIN_PURCHASE_AMOUNT ≤ s ∧ s ≤ p.max_purchase_amount ∧
      ¬ n ∈ p.used_nonces ∧
      t.mint = p.snrg_mint ∧ bt.mint = p.snrg_mint ∧ bt.owner = buyer ∧
      s ≤ t.amount ∧ bt.amount + s ≤ u64Max
  | .tokenBuy buyer pm pa s n sig _ bp tp ts bsn _ =>
      0 < pa ∧ 0 < s ∧ sig.length = 64 ∧ p.openFlag = true ∧ p.paused = false ∧
      (0 < n ∧ n ≤ u64Max) ∧ MIN_PURCHASE_AMOUNT ≤ s ∧ s ≤ p.max_purchase_amount ∧
      pm ∈ p.supported_tokens ∧ ¬ n ∈ p.used_nonces ∧
      bp.mint = pm ∧ tp.mint = pm ∧ ts.mint = p.snrg_mint ∧ bsn.mint = p.snrg_mint ∧
      bp.owner = buyer ∧ bsn.owner = buyer ∧
      pa ≤ bp.amount ∧ s ≤ ts.amount ∧
      tp.amount + pa ≤ u64Max ∧ bsn.amount + s ≤ u64Max

/-- C6 (amended): a buyer whose counter already reads 10 in the current 24h
window has the next attempt rejected; the error is `DailyLimitExceeded`
when the 5-minute cooldown is satisfied (the cooldown check precedes the
daily cap, so an attempt inside the cooldown fails with `PurchaseTooSoon`
instead); and the first purchase 24 hours or more after the window began,
with the cooldown satisfied and all other checks passing, succeeds and
leaves `purchase_count_today = 1`. -/
theorem c6_rate_limit_boundary (k : List Nat → List Nat) :
    (∀ (p : Presale) (a : Attempt), PreRateChecks p a →
        (a.bstate).purchase_count_today = 10 →
        a.time < (a.bstate).daily_purchase_reset + SECONDS_PER_DAY →
        (a.bstate).last_purchase_time + PURCHASE_COOLDOWN ≤ a.time →
        stepBuy k p a = .error .DailyLimitExceeded) ∧
    (∀ (p : Presale) (a : Attempt), NonRateChecks p a →
        (a.bstate).last_purchase_time + PURCHASE_COOLDOWN ≤ a.time →
        (a.bstate).daily_purchase_reset + SECONDS_PER_DAY ≤ a.time →
        ∃ pr, stepBuy k p a = .ok pr ∧ pr.2.purchase_count_today = 1) := by
  constructor
  · intro p a hpre hcnt hwin hcool
    cases a with
    | native buyer s pa n sig bs t bt now =>
        obtain ⟨h1, h2, h3, h4, h5, h6, h7, h8⟩ := hpre
        have hc : bs.last_purchase_time + PURCHASE_COOLDOWN ≤ now := hcool
        have hskip : ¬ bs.daily_purchase_reset + SECONDS_PER_DAY ≤ now := by
          have hw : now < bs.daily_purchase_reset + SECONDS_PER_DAY := hwin
          omega
        have hncnt : ¬ (resetDaily bs now).purchase_count_today <
            MAX_PURCHASES_PER_DAY := by
          rw [resetDaily_skip hskip]
          have h10 : bs.purchase_count_today = 10 := hcnt
          rw [h10]
          decide
        simp only [stepBuy, buy_with_native, check_nonce, check_purchase_limits,
          check_and_update_rate_limits, requireE_pos h1, requireE_pos h2,
          requireE_pos h3, requireE_pos h4, requireE_pos h5, requireE_pos h6,
          requireE_pos h7, requireE_pos h8, requireE_pos hc, ok_bind, pure_bind,
          requireE_neg hncnt, error_bind, map_error]
    | tokenBuy buyer pm pa s n sig bs bp tp ts bsn now =>
        obtain ⟨h1, h2, h3, h4, h5, h6, h7, h8⟩ := hpre
        have hc : bs.last_purchase_time + PURCHASE_COOLDOWN ≤ now := hcool
        have hskip : ¬ bs.daily_purchase_reset + SECONDS_PER_DAY ≤ now := by
          have hw : now < bs.daily_purchase_reset + SECONDS_PER_DAY := hwin
          omega
        have hncnt : ¬ (resetDaily bs now).purchase_count_today <
            MAX_PURCHASES_PER_DAY := by
          rw [resetDaily_skip hskip]
          have h10 : bs.purchase_count_today = 10 := hcnt
          rw [h10]
          decide
        simp only [stepBuy, buy_with_token, check_nonce, check_purchase_limits,
          check_and_update_rate_limits, requireE_pos h1, requireE_pos h2,
          requireE_pos h3, requireE_pos h4, requireE_pos h5, requireE_pos h6,
          requireE_pos h7, requireE_pos h8, requireE_pos hc, ok_bind, pure_bind,
          requireE_neg hncnt, error_bind, map_error]
  · intro p a hok hcool hdue
    cases a with
    | native buyer s pa n sig bs t bt now =>
        obtain ⟨h1, h2, h3, h4, h5, h6, h7, h8, h9, h10, h11, h12, h13, h14⟩ := hok
        have hc : bs.last_purchase_time + PURCHASE_COOLDOWN ≤ now := hcool
        have hd : bs.daily_purchase_reset + SECONDS_PER_DAY ≤ now := hdue
        have hmm : t.mint = bt.mint := by rw [h10, h11]
        have hsp : splTransfer t bt s =
            some ({ t with amount := t.amount - s },
                  { bt with amount := bt.amount + s }) := by
          unfold splTransfer
          rw [if_pos ⟨hmm, h13, h14⟩]
        have hzc : (0 : Nat) < MAX_PURCHASES_PER_DAY := by decide
        refine ⟨({ p with used_nonces := p.used_nonces ++ [n] },
          ⟨now, 0 + 1, now⟩), ?_, rfl⟩
        simp only [stepBuy, buy_with_native, check_nonce, check_purchase_limits,
            check_and_update_rate_limits, verify_signature, requireE_pos h1,
            requireE_pos h2, requireE_pos h3, requireE_pos h4, requireE_pos h5,
            requireE_pos h6, requireE_pos h7, requireE_pos h8, requireE_pos hc,
            resetDaily_due hd, requireE_pos hzc, requireE_pos h9,
            requireE_pos h10, requireE_pos h11, requireE_pos h12,
            requireE_pos h13, ok_bind, pure_bind, hsp, liftE_some, map_ok_eval]
        rfl
    | tokenBuy buyer pm pa s n sig bs bp tp ts bsn now =>
        obtain ⟨h1, h2, h3, h4, h5, h6, h7, h8, h9, h10, h11, h12, h13, h14,
          h15, h16, h17, h18, h19, h20⟩ := hok
        have hc : bs.last_purchase_time + PURCHASE_COOLDOWN ≤ now := hcool
        have hd : bs.daily_purchase_reset + SECONDS_PER_DAY ≤ now := hdue
        have hmm1 : bp.mint = tp.mint := by rw [h11, h12]
        have hmm2 : ts.mint = bsn.mint := by rw [h13, h14]
        have hsp1 : splTransfer bp tp pa =
            some ({ bp with amount := bp.amount - pa },
                  { tp with amount := tp.amount + pa }) := by
          unfold splTransfer
          rw [if_pos ⟨hmm1, h17, h19⟩]
        have hsp2 : splTransfer ts bsn s =
            some ({ ts with amount := ts.amount - s },
                  { bsn with amount := bsn.amount + s }) := by
          unfold splTransfer
          rw [if_pos ⟨hmm2, h18, h20⟩]
        have hzc : (0 : Nat) < MAX_PURCHASES_PER_DAY := by decide
        refine ⟨({ p with used_nonces := p.used_nonces ++ [n] },
          ⟨now, 0 + 1, now⟩), ?_, rfl⟩
        simp only [stepBuy, buy_with_token, check_nonce, check_purchase_limits,
            check_and_update_rate_limits, verify_signature, requireE_pos h1,
            requireE_pos h2, requireE_pos h3, requireE_pos h4, requireE_pos h5,
            requireE_pos h6, requireE_pos h7, requireE_pos h8, requireE_pos hc,
            resetDaily_due hd, requireE_pos hzc, requireE_pos h9,
            requireE_pos h10, requireE_pos h11, requireE_pos h12,
            requireE_pos h13, requireE_pos h14, requireE_pos h15,
            requireE_pos h16, requireE_pos h17, requireE_pos h18,
            ok_bind, pure_bind, hsp1, hsp2, liftE_some, map_ok_eval]
        rfl

/-- Counterexample for C6 as literally stated: a buyer with 10 purchases in
the current window whose 11th attempt comes one second after the 10th fails
with `PurchaseTooSoon` (the cooldown check precedes the daily cap), not
with the daily-limit error. -/
theorem c6_counterexample :
    ((Attempt.native [1] 250000000000 1 7 (List.replicate 64 0) ⟨1000, 10, 900⟩
        ⟨[2], [9], 250000000000⟩ ⟨[2], [1], 0⟩ 1001).bstate).purchase_count_today
        = 10 ∧
    (Attempt.native [1] 250000000000 1 7 (List.replicate 64 0) ⟨1000, 10, 900⟩
        ⟨[2], [9], 250000000000⟩ ⟨[2], [1], 0⟩ 1001).time <
      ((Attempt.native [1] 250000000000 1 7 (List.replicate 64 0) ⟨1000, 10, 900⟩
        ⟨[2], [9], 250000000000⟩ ⟨[2], [1], 0⟩ 1001).bstate).daily_purchase_reset
        + SECONDS_PER_DAY ∧
    stepBuy (fun _ => [])
        ⟨[2], [3], [4], true, false, 10000000000000000, [], []⟩
        (.native [1] 250000000000 1 7 (List.replicate 64 0) ⟨1000, 10, 900⟩
          ⟨[2], [9], 250000000000⟩ ⟨[2], [1], 0⟩ 1001) =
      .error .PurchaseTooSoon ∧
    PresaleError.PurchaseTooSoon ≠ PresaleError.DailyLimitExceeded :=
  ⟨rfl, by decide, rfl, by decide⟩

/-- Closed witness for C6 (amended) at concrete inputs. -/
theorem c6_witness :
    stepBuy (fun _ => [])
        ⟨[2], [3], [4], true, false, 10000000000000000, [], []⟩
        (.native [1] 250000000000 1 7 (List.replicate 64 0) ⟨700, 10, 900⟩
          ⟨[2], [9], 250000000000⟩ ⟨[2], [1], 0⟩ 1000) =
      .error .DailyLimitExceeded ∧
    (∃ pr, stepBuy (fun _ => [])
        ⟨[2], [3], [4], true, false, 10000000000000000, [], []⟩
        (.native [1] 250000000000 1 7 (List.replicate 64 0) ⟨0, 0, 0⟩
          ⟨[2], [9], 250000000000⟩ ⟨[2], [1], 0⟩ 86400) = .ok pr ∧
      pr.2.purchase_count_today = 1) := by
  constructor
  · refine (c6_rate_limit_boundary (fun _ => [])).1 _ _ ?_ rfl (by decide) (by decide)
    unfold PreRateChecks
    decide
  · refine (c6_rate_limit_boundary (fun _ => [])).2 _ _ ?_ (by decide) (by decide)
    unfold NonRateChecks
    decide

end SnrgPresale

namespace SnrgPresaleNet

/-! Embedding of `src/networks/solana/programs/snrg_presale/src/lib.rs`,
the complete presale variant (per spec §9, the canonical one): nonces are
`u128` kept in a per-buyer `NonceState`, purchases carry a `deadline` and a
65-byte recoverable secp256k1 signature over a domain-separated keccak-256
digest, the native path moves lamports to the treasury, and deliveries are
delta-checked.  `secp256k1_recover` followed by the conversion of the
recovered key for comparison against the stored signer is modelled as one
external collaborator `recover`, returning `none` on failure. -/

/-- `PresaleError` of this variant, plus `SystemError` / `TokenProgramError`
for failures propagated from the system-program and SPL-token CPIs. -/
inductive PresaleError where
  | PresaleClosed
  | ZeroAddress
  | ZeroAmount
  | TokenNotSupported
  | NonceAlreadyUsed
  | InvalidSignature
  | PurchaseTooSoon
  | DailyLimitExceeded
  | AmountTooLow
  | AmountTooHigh
  | InvalidNonce
  | InsufficientBalance
  | InexactDelivery
  | UnderpaidTreasury
  | SignatureExpired
  | Paused
  | NotPaused
  | AlreadyPaused
  | CannotUseSnrgAsPayment
  | SystemError
  | TokenProgramError
deriving DecidableEq, Repr

/-- The `Presale` account state; `supported_tokens` models the key set of
the source's `BTreeMap<Pubkey, bool>`.  The source field `open` is a Lean
keyword and is rendered `openFlag`. -/
structure Presale where
  snrg_mint : Pubkey
  treasury : Pubkey
  signer : Pubkey
  openFlag : Bool
  paused : Bool
  max_purchase_amount : Nat
  supported_tokens : List Pubkey
deriving DecidableEq, Repr

/-- The per-buyer `PurchaseTracking` account. -/
structure PurchaseTracking where
  buyer : Pubkey
  last_purchase_time : Int
  purchase_count_today : Nat
  daily_reset : Int
deriving DecidableEq, Repr

/-- The per-buyer `NonceState` account; `used_nonces` models the key set of
the source's `BTreeMap<u128, bool>`. -/
structure NonceState where
  buyer : Pubkey
  used_nonces : List Nat
deriving DecidableEq, Repr

def PURCHASE_COOLDOWN : Int := 5 * 60

def MAX_PURCHASES_PER_DAY : Nat := 10

def MIN_PURCHASE_AMOUNT : Nat := 1000 * 1000000000

/-- Largest value of a Rust `u128`. -/
def u128Max : Nat := 2 ^ 128 - 1

/-- Stand-in for this program's `declare_id!` constant (a fixed 32-byte
value whose concrete bytes the claims do not depend on). -/
def programIdNet : Pubkey := List.replicate 31 0 ++ [2]

/-- The ASCII bytes of the Ethereum signed-message header
`"\x19Ethereum Signed Message:\n32"`. -/
def ethMsgHeader : List Nat :=
  [0x19, 0x45, 0x74, 0x68, 0x65, 0x72, 0x65, 0x75, 0x6d, 0x20, 0x53, 0x69,
   0x67, 0x6e, 0x65, 0x64, 0x20, 0x4d, 0x65, 0x73, 0x73, 0x61, 0x67, 0x65,
   0x3a, 0x0a, 0x33, 0x32]

/-- The ASCII bytes of the domain separator `"snrg_presale_v1"`. -/
def domainSep : List Nat :=
  [0x73, 0x6e, 0x72, 0x67, 0x5f, 0x70, 0x72, 0x65, 0x73, 0x61, 0x6c, 0x65,
   0x5f, 0x76, 0x31]

/-- A 65-byte recoverable signature (`[u8; 65]`): bytes 0..63 are r‖s,
byte 64 is the recovery id. -/
def Sig65 := { l : List Nat // l.length = 65 }

/-- `_check_purchase_limits`. -/
def check_purchase_limits (p : Presale) (snrg_amount : Nat) :
    Except PresaleError Unit := do
  requireE (MIN_PURCHASE_AMOUNT ≤ snrg_amount) .AmountTooLow
  requireE (snrg_amount ≤ p.max_purchase_amount) .AmountTooHigh

/-- `_build_message_hash`: keccak over `buyer ‖ payment_token ‖
le(payment_amount) ‖ le(snrg_amount) ‖ le(nonce) ‖ le(deadline) ‖
program_id ‖ "snrg_presale_v1"`. -/
def build_message_hash (keccak : List Nat → List Nat)
    (buyer payment_token : Pubkey) (payment_amount snrg_amount nonce : Nat)
    (deadline : Int) : List Nat :=
  keccak (buyer ++ payment_token ++ leBytes 8 payment_amount ++
    leBytes 8 snrg_amount ++ leBytes 16 nonce ++ leBytesInt 8 deadline ++
    programIdNet ++ domainSep)

/-- `_verify_signature`: nonce range and replay check, Ethereum-prefixed
hash, public-key recovery, byte-for-byte comparison with the configured
signer, then the nonce is recorded. -/
def verify_signature (keccak : List Nat → List Nat)
    (recover : List Nat → Nat → List Nat → Option Pubkey)
    (signer : Pubkey) (message_hash : List Nat) (sig : Sig65)
    (nonce : Nat) (ns : NonceState) : Except PresaleError NonceState := do
  requireE (0 < nonce ∧ nonce ≤ u128Max) .InvalidNonce
  requireE (¬ nonce ∈ ns.used_nonces) .NonceAlreadyUsed
  let eth_signed_hash := keccak (ethMsgHeader ++ message_hash)
  let pk ← liftE (recover eth_signed_hash (sig.val.getD 64 0) (sig.val.take 64))
    .InvalidSignature
  requireE (pk = signer) .InvalidSignature
  pure { ns with used_nonces := ns.used_nonces ++ [nonce] }

/-- `_deliver_snrg_exact`: balance precheck, transfer from treasury custody
to the buyer under the program-derived authority, then the delta check
`received == amount`. -/
def deliver_snrg_exact (treasury_token buyer_token : TokenAccount)
    (amount : Nat) : Except PresaleError (TokenAccount × TokenAccount) := do
  requireE (amount ≤ treasury_token.amount) .InsufficientBalance
  let (t, b) ← liftE (splTransfer treasury_token buyer_token amount)
    .TokenProgramError
  requireE (b.amount - buyer_token.amount = amount) .InexactDelivery
  pure (t, b)

/-- `_update_purchase_tracking`. -/
def update_purchase_tracking (tr : PurchaseTracking) (now : Int) :
    PurchaseTracking :=
  if tr.daily_reset + 86400 ≤ now then
    { tr with last_purchase_time := now, purchase_count_today := 1,
              daily_reset := now }
  else
    { tr with last_purchase_time := now,
              purchase_count_today := tr.purchase_count_today + 1 }

/-- The system-program lamport transfer invoked by the native path. -/
def systemTransfer (fromLamports toLamports amount : Nat) :
    Option (Nat × Nat) :=
  if amount ≤ fromLamports ∧ toLamports + amount ≤ u64Max then
    some (fromLamports - amount, toLamports + amount)
  else none

/-- Result of `buy_with_native`. -/
structure BuyNativeResult where
  nonce_state : NonceState
  tracking : PurchaseTracking
  buyer_lamports : Nat
  treasury_lamports : Nat
  treasury_snrgtoken : TokenAccount
  buyer_snrgtoken : TokenAccount
deriving DecidableEq, Repr

/-- `buy_with_native`. -/
def buy_with_native (keccak : List Nat → List Nat)
    (recover : List Nat → Nat → List Nat → Option Pubkey)
    (p : Presale) (ns : NonceState) (tr : PurchaseTracking) (buyer : Pubkey)
    (payment_amount snrg_amount nonce : Nat) (deadline : Int) (sig : Sig65)
    (buyer_lamports treasury_lamports : Nat)
    (treasury_snrgtoken buyer_snrgtoken : TokenAccount) (now : Int) :
    Except PresaleError BuyNativeResult := do
  requireE (p.openFlag = true) .PresaleClosed
  requireE (p.paused = false) .Paused
  requireE (0 < payment_amount) .ZeroAmount
  requireE (0 < snrg_amount) .ZeroAmount
  requireE (0 < deadline) .SignatureExpired
  requireE (now ≤ deadline) .SignatureExpired
  check_purchase_limits p snrg_amount
  let message := build_message_hash keccak buyer zeroPubkey payment_amount
    snrg_amount nonce deadline
  let ns' ← verify_signature keccak recover p.signer message sig nonce ns
  let (bl, tl) ← liftE (systemTransfer buyer_lamports treasury_lamports
    payment_amount) .SystemError
  let (ts, bs) ← deliver_snrg_exact treasury_snrgtoken buyer_snrgtoken snrg_amount
  pure ⟨ns', update_purchase_tracking tr now, bl, tl, ts, bs⟩

/-- Result of `buy_with_token`. -/
structure BuyTokenResult where
  nonce_state : NonceState
  tracking : PurchaseTracking
  buyer_payment_token : TokenAccount
  treasury_payment_token : TokenAccount
  treasury_snrgtoken : TokenAccount
  buyer_snrgtoken : TokenAccount
deriving DecidableEq, Repr

/-- `buy_with_token`. -/
def buy_with_token (keccak : List Nat → List Nat)
    (recover : List Nat → Nat → List Nat → Option Pubkey)
    (p : Presale) (ns : NonceState) (tr : PurchaseTracking)
    (buyer payment_mint : Pubkey) (payment_amount snrg_amount nonce : Nat)
    (deadline : Int) (sig : Sig65)
    (buyer_payment_token treasury_payment_token
      treasury_snrgtoken buyer_snrgtoken : TokenAccount) (now : Int) :
    Except PresaleError BuyTokenResult := do
  requireE (p.openFlag = true) .PresaleClosed
  requireE (p.paused = false) .Paused
  requireE (0 < payment_amount) .ZeroAmount
  requireE (0 < snrg_amount) .ZeroAmount
  requireE (0 < deadline) .SignatureExpired
  requireE (now ≤ deadline) .SignatureExpired
  requireE (payment_mint ∈ p.supported_tokens) .TokenNotSupported
  check_purchase_limits p snrg_amount
  let message := build_message_hash keccak buyer payment_mint payment_amount
    snrg_amount nonce deadline
  let ns' ← verify_signature keccak recover p.signer message sig nonce ns
  let (bp, tp) ← liftE (splTransfer buyer_payment_token treasury_payment_token
    payment_amount) .TokenProgramError
  requireE (treasury_payment_token.amount + payment_amount ≤ tp.amount)
    .UnderpaidTreasury
  let (ts, bs) ← deliver_snrg_exact treasury_snrgtoken buyer_snrgtoken snrg_amount
  pure ⟨ns', update_purchase_tracking tr now, bp, tp, ts, bs⟩

lemma systemTransfer_some {a b c a' b' : Nat}
    (h : systemTransfer a b c = some (a', b')) :
    a' = a - c ∧ b' = b + c ∧ c ≤ a ∧ b + c ≤ u64Max := by
  unfold systemTransfer at h
  by_cases hc : c ≤ a ∧ b + c ≤ u64Max
  · rw [if_pos hc] at h
    obtain ⟨h1, h2⟩ := Prod.mk.injEq .. ▸ Option.some.injEq .. ▸ h
    exact ⟨h1.symm, h2.symm, hc⟩
  · rw [if_neg hc] at h
    cases h

/-- C4: a successful `buy_with_native` with payment amount `pa` moves
exactly `pa` lamports from the buyer to the treasury, and delivers exactly
`snrg_amount` SNRG from treasury custody to the buyer. -/
theorem c4_native_payment_leg (keccak : List Nat → List Nat)
    (recover : List Nat → Nat → List Nat → Option Pubkey)
    (p : Presale) (ns : NonceState) (tr : PurchaseTracking) (buyer : Pubkey)
    (pa s n : Nat) (dl : Int) (sig : Sig65) (bl tl : Nat)
    (tst bst : TokenAccount) (now : Int) (r : BuyNativeResult)
    (h : buy_with_native keccak recover p ns tr buyer pa s n dl sig bl tl
      tst bst now = .ok r) :
    r.buyer_lamports = bl - pa ∧ pa ≤ bl ∧
      r.treasury_lamports = tl + pa ∧
      r.buyer_snrgtoken.amount = bst.amount + s ∧
      r.treasury_snrgtoken.amount = tst.amount - s ∧ s ≤ tst.amount := by
  unfold buy_with_native check_purchase_limits verify_signature
    deliver_snrg_exact at h
  simp only [bind_assoc, pure_bind, requireE_bind_ok, liftE_bind_ok,
    pure_eq_ok] at h
  obtain ⟨-, -, -, -, -, -, -, -, -, -, pk, hrec, hpk, ⟨bl', tl'⟩, hsys, hbal,
    ⟨t, b⟩, hsp, hdelta, hr⟩ := h
  obtain ⟨hsys1, hsys2, hsys3, -⟩ := systemTransfer_some hsys
  obtain ⟨ht, hb, -, hle, -⟩ := splTransfer_some hsp
  subst hr
  refine ⟨hsys1, hsys3, hsys2, ?_, ?_, hbal⟩
  · show b.amount = bst.amount + s
    rw [hb]
  · show t.amount = tst.amount - s
    rw [ht]

/-- Closed witness for C4: a concrete successful native purchase. -/
theorem c4_witness :
    ∃ r, buy_with_native (fun _ => []) (fun _ _ _ => some [4])
        ⟨[2], [3], [4], true, false, 5000000000000000, []⟩ ⟨[1], []⟩
        ⟨[1], 0, 0, 0⟩ [1] 10 1000000000000 1 100 ⟨List.replicate 65 0, rfl⟩
        100 0 ⟨[2], [9], 1000000000000⟩ ⟨[2], [1], 0⟩ 50 = .ok r ∧
      (r.buyer_lamports = 100 - 10 ∧ 10 ≤ 100 ∧
        r.treasury_lamports = 0 + 10 ∧
        r.buyer_snrgtoken.amount = 0 + 1000000000000 ∧
        r.treasury_snrgtoken.amount = 1000000000000 - 1000000000000 ∧
        1000000000000 ≤ 1000000000000) := by
  refine ⟨_, rfl, ?_⟩
  exact c4_native_payment_leg (fun _ => []) (fun _ _ _ => some [4])
    ⟨[2], [3], [4], true, false, 5000000000000000, []⟩ ⟨[1], []⟩
    ⟨[1], 0, 0, 0⟩ [1] 10 1000000000000 1 100 ⟨List.replicate 65 0, rfl⟩
    100 0 ⟨[2], [9], 1000000000000⟩ ⟨[2], [1], 0⟩ 50 _ rfl

/-- C5: both purchase entry points take a `deadline` parameter and enforce
it: success implies `0 < deadline` and `now <= deadline`, and an attempt
with `deadline < now` never succeeds (so, with transactional rollback, it
fails with no state change). -/
theorem c5_deadline_enforced (keccak : List Nat → List Nat)
    (recover : List Nat → Nat → List Nat → Option Pubkey) :
    (∀ p ns tr buyer pa s n dl sig bl tl tst bst now r,
        buy_with_native keccak recover p ns tr buyer pa s n dl sig bl tl
          tst bst now = .ok r → 0 < dl ∧ now ≤ dl) ∧
    (∀ p ns tr buyer pa s n dl sig bl tl tst bst now r, dl < now →
        buy_with_native keccak recover p ns tr buyer pa s n dl sig bl tl
          tst bst now ≠ .ok r) ∧
    (∀ p ns tr buyer pm pa s n dl sig bp tp tst bst now r,
        buy_with_token keccak recover p ns tr buyer pm pa s n dl sig bp tp
          tst bst now = .ok r → 0 < dl ∧ now ≤ dl) ∧
    (∀ p ns tr buyer pm pa s n dl sig bp tp tst bst now r, dl < now →
        buy_with_token keccak recover p ns tr buyer pm pa s n dl sig bp tp
          tst bst now ≠ .ok r) := by
  have hnat : ∀ p ns tr buyer pa s n dl sig bl tl tst bst now r,
      buy_with_native keccak recover p ns tr buyer pa s n dl sig bl tl
        tst bst now = .ok r → 0 < dl ∧ now ≤ dl := by
    intro p ns tr buyer pa s n dl sig bl tl tst bst now r h
    unfold buy_with_native check_purchase_limits verify_signature
      deliver_snrg_exact at h
    simp only [bind_assoc, pure_bind, requireE_bind_ok, liftE_bind_ok,
      pure_eq_ok] at h
    exact ⟨h.2.2.2.2.1, h.2.2.2.2.2.1⟩
  have htok : ∀ p ns tr buyer pm pa s n dl sig bp tp tst bst now r,
      buy_with_token keccak recover p ns tr buyer pm pa s n dl sig bp tp
        tst bst now = .ok r → 0 < dl ∧ now ≤ dl := by
    intro p ns tr buyer pm pa s n dl sig bp tp tst bst now r h
    unfold buy_with_token check_purchase_limits verify_signature
      deliver_snrg_exact at h
    simp only [bind_assoc, pure_bind, requireE_bind_ok, liftE_bind_ok,
      pure_eq_ok] at h
    exact ⟨h.2.2.2.2.1, h.2.2.2.2.2.1⟩
  refine ⟨hnat, ?_, htok, ?_⟩
  · intro p ns tr buyer pa s n dl sig bl tl tst bst now r hlt h
    have := hnat p ns tr buyer pa s n dl sig bl tl tst bst now r h
    omega
  · intro p ns tr buyer pm pa s n dl sig bp tp tst bst now r hlt h
    have := htok p ns tr buyer pm pa s n dl sig bp tp tst bst now r h
    omega

/-- Closed witness for C5: the deadline facts extracted from a concrete
successful purchase, and a concrete expired attempt that cannot succeed. -/
theorem c5_witness :
    ((0 : Int) < 100 ∧ (50 : Int) ≤ 100) ∧
    buy_with_native (fun _ => []) (fun _ _ _ => some [4])
        ⟨[2], [3], [4], true, false, 5000000000000000, []⟩ ⟨[1], []⟩
        ⟨[1], 0, 0, 0⟩ [1] 10 1000000000000 1 100 ⟨List.replicate 65 0, rfl⟩
        100 0 ⟨[2], [9], 1000000000000⟩ ⟨[2], [1], 0⟩ 200 ≠
      .ok ⟨⟨[1], [1]⟩, ⟨[1], 200, 1, 200⟩, 90, 10,
        ⟨[2], [9], 0⟩, ⟨[2], [1], 1000000000000⟩⟩ := by
  constructor
  · exact (c5_deadline_enforced (fun _ => []) (fun _ _ _ => some [4])).1
      ⟨[2], [3], [4], true, false, 5000000000000000, []⟩ ⟨[1], []⟩
      ⟨[1], 0, 0, 0⟩ [1] 10 1000000000000 1 100 ⟨List.replicate 65 0, rfl⟩
      100 0 ⟨[2], [9], 1000000000000⟩ ⟨[2], [1], 0⟩ 50 _ rfl
  · exact (c5_deadline_enforced (fun _ => []) (fun _ _ _ => some [4])).2.1
      ⟨[2], [3], [4], true, false, 5000000000000000, []⟩ ⟨[1], []⟩
      ⟨[1], 0, 0, 0⟩ [1] 10 1000000000000 1 100 ⟨List.replicate 65 0, rfl⟩
      100 0 ⟨[2], [9], 1000000000000⟩ ⟨[2], [1], 0⟩ 200 _ (by decide)

/-- The checks of `buy_with_native` that precede the signature recovery. -/
def PreSigNative (p : Presale) (ns : NonceState)
    (payment_amount snrg_amount nonce : Nat) (deadline now : Int) : Prop :=
  p.openFlag = true ∧ p.paused = false ∧ 0 < payment_amount ∧ 0 < snrg_amount ∧
    0 < deadline ∧ now ≤ deadline ∧ MIN_PURCHASE_AMOUNT ≤ snrg_amount ∧
    snrg_amount ≤ p.max_purchase_amount ∧ (0 < nonce ∧ nonce ≤ u128Max) ∧
    ¬ nonce ∈ ns.used_nonces

/-- The checks of `buy_with_token` that precede the signature recovery. -/
def PreSigToken (p : Presale) (ns : NonceState) (payment_mint : Pubkey)
    (payment_amount snrg_amount nonce : Nat) (deadline now : Int) : Prop :=
  p.openFlag = true ∧ p.paused = false ∧ 0 < payment_amount ∧ 0 < snrg_amount ∧
    0 < deadline ∧ now ≤ deadline ∧ payment_mint ∈ p.supported_tokens ∧
    MIN_PURCHASE_AMOUNT ≤ snrg_amount ∧ snrg_amount ≤ p.max_purchase_amount ∧
    (0 < nonce ∧ nonce ≤ u128Max) ∧ ¬ nonce ∈ ns.used_nonces

/-- C3: on both entry points, success implies that public-key recovery on
the 65-byte signature over the Ethereum-prefixed, domain-separated digest
yields exactly the configured signer (byte-for-byte equality of keys); and
whenever the checks preceding recovery pass but recovery does not yield the
configured signer, the purchase fails with `InvalidSignature` — the
signature is checked before either asset movement, and a failure commits
nothing. -/
theorem c3_signature_authorization (keccak : List Nat → List Nat)
    (recover : List Nat → Nat → List Nat → Option Pubkey) :
    (∀ p ns tr buyer pa s n dl sig bl tl tst bst now r,
        buy_with_native keccak recover p ns tr buyer pa s n dl sig bl tl
          tst bst now = .ok r →
        recover (keccak (ethMsgHeader ++
            build_message_hash keccak buyer zeroPubkey pa s n dl))
          (sig.val.getD 64 0) (sig.val.take 64) = some p.signer) ∧
    (∀ p ns tr buyer pa s n dl sig bl tl tst bst now,
        PreSigNative p ns pa s n dl now →
        recover (keccak (ethMsgHeader ++
            build_message_hash keccak buyer zeroPubkey pa s n dl))
          (sig.val.getD 64 0) (sig.val.take 64) ≠ some p.signer →
        buy_with_native keccak recover p ns tr buyer pa s n dl sig bl tl
          tst bst now = .error .InvalidSignature) ∧
    (∀ p ns tr buyer pm pa s n dl sig bp tp tst bst now r,
        buy_with_token keccak recover p ns tr buyer pm pa s n dl sig bp tp
          tst bst now = .ok r →
        recover (keccak (ethMsgHeader ++
            build_message_hash keccak buyer pm pa s n dl))
          (sig.val.getD 64 0) (sig.val.take 64) = some p.signer) ∧
    (∀ p ns tr buyer pm pa s n dl sig bp tp tst bst now,
        PreSigToken p ns pm pa s n dl now →
        recover (keccak (ethMsgHeader ++
            build_message_hash keccak buyer pm pa s n dl))
          (sig.val.getD 64 0) (sig.val.take 64) ≠ some p.signer →
        buy_with_token keccak recover p ns tr buyer pm pa s n dl sig bp tp
          tst bst now = .error .InvalidSignature) := by
  refine ⟨?_, ?_, ?_, ?_⟩
  · intro p ns tr buyer pa s n dl sig bl tl tst bst now r h
    unfold buy_with_native check_purchase_limits verify_signature
      deliver_snrg_exact at h
    simp only [bind_assoc, pure_bind, requireE_bind_ok, liftE_bind_ok,
      pure_eq_ok] at h
    obtain ⟨-, -, -, -, -, -, -, -, -, -, pk, hrec, hpk, -⟩ := h
    rw [hrec, hpk]
  · intro p ns tr buyer pa s n dl sig bl tl tst bst now hpre hne
    obtain ⟨h1, h2, h3, h4, h5, h6, h7, h8, h9, h10⟩ := hpre
    unfold buy_with_native check_purchase_limits verify_signature
    rcases hrec : recover (keccak (ethMsgHeader ++
        build_message_hash keccak buyer zeroPubkey pa s n dl))
        (sig.val.getD 64 0) (sig.val.take 64) with _ | pk
    · simp only [requireE_pos h1, requireE_pos h2, requireE_pos h3,
        requireE_pos h4, requireE_pos h5, requireE_pos h6, requireE_pos h7,
        requireE_pos h8, requireE_pos h9, requireE_pos h10, ok_bind,
        pure_bind, hrec, liftE_none, error_bind]
    · have hpk : ¬ pk = p.signer := fun hc =>
        hne (hrec.trans (congrArg some hc))
      simp only [requireE_pos h1, requireE_pos h2, requireE_pos h3,
        requireE_pos h4, requireE_pos h5, requireE_pos h6, requireE_pos h7,
        requireE_pos h8, requireE_pos h9, requireE_pos h10, ok_bind,
        pure_bind, hrec, liftE_some, requireE_neg hpk, error_bind]
  · intro p ns tr buyer pm pa s n dl sig bp tp tst bst now r h
    unfold buy_with_token check_purchase_limits verify_signature
      deliver_snrg_exact at h
    simp only [bind_assoc, pure_bind, requireE_bind_ok, liftE_bind_ok,
      pure_eq_ok] at h
    obtain ⟨-, -, -, -, -, -, -, -, -, -, -, pk, hrec, hpk, -⟩ := h
    rw [hrec, hpk]
  · intro p ns tr buyer pm pa s n dl sig bp tp tst bst now hpre hne
    obtain ⟨h1, h2, h3, h4, h5, h6, h7, h8, h9, h10, h11⟩ := hpre
    unfold buy_with_token check_purchase_limits verify_signature
    rcases hrec : recover (keccak (ethMsgHeader ++
        build_message_hash keccak buyer pm pa s n dl))
        (sig.val.getD 64 0) (sig.val.take 64) with _ | pk
    · simp only [requireE_pos h1, requireE_pos h2, requireE_pos h3,
        requireE_pos h4, requireE_pos h5, requireE_pos h6, requireE_pos h7,
        requireE_pos h8, requireE_pos h9, requireE_pos h10, requireE_pos h11,
        ok_bind, pure_bind, hrec, liftE_none, error_bind]
    · have hpk : ¬ pk = p.signer := fun hc =>
        hne (hrec.trans (congrArg some hc))
      simp only [requireE_pos h1, requireE_pos h2, requireE_pos h3,
        requireE_pos h4, requireE_pos h5, requireE_pos h6, requireE_pos h7,
        requireE_pos h8, requireE_pos h9, requireE_pos h10, requireE_pos h11,
        ok_bind, pure_bind, hrec, liftE_some, requireE_neg hpk, error_bind]

/-- Closed witness for C3: a successful concrete purchase whose recovery
yields the configured signer, and the same purchase with a recovery
collaborator that fails, rejected with `InvalidSignature`. -/
theorem c3_witness :
    (fun (_ : List Nat) (_ : Nat) (_ : List Nat) =>
        some ([4] : Pubkey))
      ((fun (_ : List Nat) => ([] : List Nat)) (ethMsgHeader ++
        build_message_hash (fun _ => []) [1] zeroPubkey 10 1000000000000 1 100))
      ((⟨List.replicate 65 0, rfl⟩ : Sig65).val.getD 64 0)
      ((⟨List.replicate 65 0, rfl⟩ : Sig65).val.take 64) = some [4] ∧
    buy_with_native (fun _ => []) (fun _ _ _ => none)
        ⟨[2], [3], [4], true, false, 5000000000000000, []⟩ ⟨[1], []⟩
        ⟨[1], 0, 0, 0⟩ [1] 10 1000000000000 1 100 ⟨List.replicate 65 0, rfl⟩
        100 0 ⟨[2], [9], 1000000000000⟩ ⟨[2], [1], 0⟩ 50 =
      .error .InvalidSignature := by
  constructor
  · exact (c3_signature_authorization (fun _ => []) (fun _ _ _ => some [4])).1
      ⟨[2], [3], [4], true, false, 5000000000000000, []⟩ ⟨[1], []⟩
      ⟨[1], 0, 0, 0⟩ [1] 10 1000000000000 1 100 ⟨List.replicate 65 0, rfl⟩
      100 0 ⟨[2], [9], 1000000000000⟩ ⟨[2], [1], 0⟩ 50 _ rfl
  · refine (c3_signature_authorization (fun _ => []) (fun _ _ _ => none)).2.1
      ⟨[2], [3], [4], true, false, 5000000000000000, []⟩ ⟨[1], []⟩
      ⟨[1], 0, 0, 0⟩ [1] 10 1000000000000 1 100 ⟨List.replicate 65 0, rfl⟩
      100 0 ⟨[2], [9], 1000000000000⟩ ⟨[2], [1], 0⟩ 50 ?_ (by decide)
    unfold PreSigNative
    decide

end SnrgPresaleNet

namespace SnrgSwap

/-! Embedding of `src/solana/programs/snrg_swap/src/lib.rs`: the
burn-receipt ledger with a timelocked finalization commitment. -/

/-- `SwapError`. -/
inductive SwapError where
  | ZeroAmount
  | ZeroMerkleRoot
  | AlreadyFinalized
  | NotFinalized
  | PendingRootExists
  | NoPendingRoot
  | TimelockNotExpired
  | ReopenCooldownActive
  | Paused
  | AlreadyPaused
  | NotPaused
  | InexactBurn
  | Overflow
  | MathError
  | Unauthorized
deriving DecidableEq, Repr

/-- The `Swap` account state. -/
structure Swap where
  snrg_mint : Pubkey
  treasury : Pubkey
  finalized : Bool
  paused : Bool
  total_burned : Nat
  merkle_root : List Nat
  proposed_root : List Nat
  proposed_at : Int
  burn_commitment : List Nat
  last_finalized_at : Int
deriving DecidableEq, Repr

def FINALIZE_DELAY : Int := 48 * 60 * 60

def REOPEN_COOLDOWN : Int := 7 * 24 * 60 * 60

/-- The all-zero 32-byte root (`[0u8; 32]`). -/
def zeroRoot : List Nat := List.replicate 32 0

/-- Stand-in for this program's `declare_id!` constant. -/
def programIdSwap : Pubkey := List.replicate 31 0 ++ [3]

/-- `finalize`: requires an unfinalized swap with a pending root, burns
recorded, and the 48h timelock elapsed; computes the keccak-256 burn
commitment over `(root, total_burned, now, program id)`, installs the root
and clears the pending proposal. -/
def finalize (keccak : List Nat → List Nat) (s : Swap) (now : Int) :
    Except SwapError Swap := do
  requireE (s.finalized = false) .AlreadyFinalized
  requireE (¬ s.proposed_root = zeroRoot) .ZeroMerkleRoot
  requireE (0 < s.total_burned) .ZeroAmount
  requireE (s.proposed_at + FINALIZE_DELAY ≤ now) .TimelockNotExpired
  pure { s with
    burn_commitment := keccak (s.proposed_root ++ leBytes 8 s.total_burned ++
      leBytesInt 8 now ++ programIdSwap),
    finalized := true,
    merkle_root := s.proposed_root,
    last_finalized_at := now,
    proposed_root := zeroRoot,
    proposed_at := 0 }

/-- C8: `finalize` succeeds exactly when the swap is not finalized, a
pending root exists, `total_burned > 0` and the timelock has elapsed; on
success the burn commitment is the keccak-256 hash of
`(proposed root, total_burned, now, program identity)`, `finalized` is set,
the proposed root becomes `merkle_root`, and the pending proposal is
cleared. -/
theorem c8_finalize_spec (keccak : List Nat → List Nat) (s : Swap) (now : Int) :
    ((∃ s', finalize keccak s now = .ok s') ↔
      (s.finalized = false ∧ ¬ s.proposed_root = zeroRoot ∧
        0 < s.total_burned ∧ s.proposed_at + FINALIZE_DELAY ≤ now)) ∧
    (∀ s', finalize keccak s now = .ok s' →
      s'.burn_commitment = keccak (s.proposed_root ++ leBytes 8 s.total_burned ++
        leBytesInt 8 now ++ programIdSwap) ∧
      s'.finalized = true ∧ s'.merkle_root = s.proposed_root ∧
      s'.proposed_root = zeroRoot ∧ s'.proposed_at = 0) := by
  constructor
  · constructor
    · intro ⟨s', h⟩
      unfold finalize at h
      simp only [requireE_bind_ok, pure_eq_ok] at h
      exact ⟨h.1, h.2.1, h.2.2.1, h.2.2.2.1⟩
    · intro ⟨h1, h2, h3, h4⟩
      refine ⟨{ s with
        burn_commitment := keccak (s.proposed_root ++ leBytes 8 s.total_burned ++
          leBytesInt 8 now ++ programIdSwap),
        finalized := true,
        merkle_root := s.proposed_root,
        last_finalized_at := now,
        proposed_root := zeroRoot,
        proposed_at := 0 }, ?_⟩
      unfold finalize
      simp only [requireE_pos h1, requireE_pos h2, requireE_pos h3,
        requireE_pos h4, ok_bind]
      rfl
  · intro s' h
    unfold finalize at h
    simp only [requireE_bind_ok, pure_eq_ok] at h
    rw [← h.2.2.2.2]
    exact ⟨rfl, rfl, rfl, rfl, rfl⟩

/-- Closed witness for C8: a concrete pending swap finalized after the
timelock. -/
theorem c8_witness :
    ∃ s', finalize (fun _ => [])
        ⟨[2], [3], false, false, 5, SnrgSwap.zeroRoot, List.replicate 32 1,
          0, SnrgSwap.zeroRoot, 0⟩ 172800 = .ok s' ∧
      s'.finalized = true ∧ s'.merkle_root = List.replicate 32 1 ∧
      s'.proposed_root = zeroRoot ∧ s'.proposed_at = 0 := by
  obtain ⟨s', hs⟩ := (c8_finalize_spec (fun _ => [])
      ⟨[2], [3], false, false, 5, SnrgSwap.zeroRoot, List.replicate 32 1,
        0, SnrgSwap.zeroRoot, 0⟩ 172800).1.mpr
    ⟨rfl, by decide, by decide, by decide⟩
  have h2 := (c8_finalize_spec (fun _ => [])
      ⟨[2], [3], false, false, 5, SnrgSwap.zeroRoot, List.replicate 32 1,
        0, SnrgSwap.zeroRoot, 0⟩ 172800).2 s' hs
  exact ⟨s', hs, h2.2.1, h2.2.2.1, h2.2.2.2.1, h2.2.2.2.2⟩

end SnrgSwap

namespace SelfRescueRegistry

/-! Embedding of `src/solana/programs/snrg_self_rescue_registry/src/lib.rs`
(module `self_rescue_registry`): the delayed self-rescue plans.  The Anchor
account constraints (the plan PDA belongs to the signing user) are part of
the binding layer; the instruction logic below is what the handlers
execute. -/

/-- `RegistryError`. -/
inductive RegistryError where
  | ZeroAddress
  | InvalidRecovery
  | DelayTooShort
  | DelayTooLong
  | NoPlanRegistered
  | RescueAlreadyActive
  | CooldownActive
  | NoActiveRescue
  | NotMatured
  | UnauthorizedCaller
  | ExceedsMaxRescue
  | InsufficientBalance
  | InsufficientAllowance
  | ZeroAmount
  | AlreadyInitialized
  | Paused
  | NotPaused
  | AlreadyPaused
  | MathOverflow
  | InvalidMint
  | InvalidOwner
  | Unauthorized
deriving DecidableEq, Repr

def MINIMUM_RESCUE_DELAY : Int := 7 * 86400

def MAXIMUM_RESCUE_DELAY : Int := 365 * 86400

def RESCUE_COOLDOWN : Int := 90 * 86400

/-- The `Registry` account state. -/
structure Registry where
  owner : Pubkey
  token_mint : Pubkey
  max_rescue_amount : Nat
  paused : Bool
  executors : List Pubkey
deriving DecidableEq, Repr

/-- A per-user `Plan` account. -/
structure Plan where
  owner : Pubkey
  recovery : Pubkey
  delay : Int
  eta : Int
  last_rescue_time : Int
deriving DecidableEq, Repr

/-- `register_plan`: validates the recovery address and the delay bounds,
then (re)writes the plan with `eta = 0`; `last_rescue_time` is not
touched. -/
def register_plan (reg : Registry) (user recovery : Pubkey) (delay : Int)
    (plan : Plan) : Except RegistryError Plan := do
  requireE (reg.paused = false) .Paused
  requireE (¬ recovery = zeroPubkey) .ZeroAddress
  requireE (¬ recovery = user) .InvalidRecovery
  requireE (MINIMUM_RESCUE_DELAY ≤ delay) .DelayTooShort
  requireE (delay ≤ MAXIMUM_RESCUE_DELAY) .DelayTooLong
  pure { plan with owner := user, recovery := recovery, delay := delay, eta := 0 }

/-- `initiate_rescue`: requires a registered plan, no armed rescue, and the
90-day cooldown since the last initiation; arms `eta = now + delay` with
checked addition and records the initiation time. -/
def initiate_rescue (reg : Registry) (plan : Plan) (now : Int) :
    Except RegistryError Plan := do
  requireE (reg.paused = false) .Paused
  requireE (¬ plan.recovery = zeroPubkey) .NoPlanRegistered
  requireE (plan.eta = 0) .RescueAlreadyActive
  requireE (plan.last_rescue_time + RESCUE_COOLDOWN ≤ now) .CooldownActive
  requireE (i64Min ≤ now + plan.delay ∧ now + plan.delay ≤ i64Max) .MathOverflow
  pure { plan with last_rescue_time := now, eta := now + plan.delay }

/-- `cancel_rescue`: requires an armed rescue; resets `eta` and
`last_rescue_time` to 0 (FIX L-04: the cooldown is released). -/
def cancel_rescue (plan : Plan) : Except RegistryError Plan := do
  requireE (¬ plan.eta = 0) .NoActiveRescue
  pure { plan with eta := 0, last_rescue_time := 0 }

lemma register_plan_ok {reg user recovery delay plan0 p'}
    (h : register_plan reg user recovery delay plan0 = .ok p') :
    reg.paused = false ∧ ¬ recovery = zeroPubkey ∧ ¬ recovery = user ∧
      MINIMUM_RESCUE_DELAY ≤ delay ∧ delay ≤ MAXIMUM_RESCUE_DELAY ∧
      p' = { plan0 with owner := user, recovery := recovery,
                        delay := delay, eta := 0 } := by
  unfold register_plan at h
  simp only [requireE_bind_ok, pure_eq_ok] at h
  exact ⟨h.1, h.2.1, h.2.2.1, h.2.2.2.1, h.2.2.2.2.1, h.2.2.2.2.2.symm⟩

/-- C9: `cancel_rescue` succeeds exactly on an armed plan and resets both
`eta` and `last_rescue_time` to 0, releasing the 90-day cooldown early, so
the sequence register → initiate → cancel → initiate succeeds with no
waiting between the calls (one common timestamp `now`). -/
theorem c9_cancel_releases_cooldown :
    (∀ plan : Plan, (∃ plan', cancel_rescue plan = .ok plan') ↔ ¬ plan.eta = 0) ∧
    (∀ plan plan', cancel_rescue plan = .ok plan' →
        plan'.eta = 0 ∧ plan'.last_rescue_time = 0) ∧
    (∀ (reg : Registry) (user recovery : Pubkey) (delay now : Int) (plan0 : Plan),
        reg.paused = false → ¬ recovery = zeroPubkey → ¬ recovery = user →
        MINIMUM_RESCUE_DELAY ≤ delay → delay ≤ MAXIMUM_RESCUE_DELAY →
        plan0.last_rescue_time = 0 → RESCUE_COOLDOWN ≤ now →
        now + delay ≤ i64Max →
        ∃ p1 p2 p3 p4,
          register_plan reg user recovery delay plan0 = .ok p1 ∧
          initiate_rescue reg p1 now = .ok p2 ∧
          cancel_rescue p2 = .ok p3 ∧
          initiate_rescue reg p3 now = .ok p4) := by
  refine ⟨?_, ?_, ?_⟩
  · intro plan
    constructor
    · intro ⟨plan', h⟩
      unfold cancel_rescue at h
      simp only [requireE_bind_ok, pure_eq_ok] at h
      exact h.1
    · intro h
      refine ⟨{ plan with eta := 0, last_rescue_time := 0 }, ?_⟩
      unfold cancel_rescue
      simp only [requireE_pos h, ok_bind]
      rfl
  · intro plan plan' h
    unfold cancel_rescue at h
    simp only [requireE_bind_ok, pure_eq_ok] at h
    rw [← h.2]
    exact ⟨rfl, rfl⟩
  · intro reg user recovery delay now plan0 hp hrz hru hdmin hdmax hlrt hcd hmax
    have hpos : (0 : Int) < now + delay := by
      have h1 : (7776000 : Int) ≤ now := hcd
      have h2 : (604800 : Int) ≤ delay := hdmin
      omega
    have hov : i64Min ≤ now + delay ∧ now + delay ≤ i64Max := by
      unfold i64Min
      constructor
      · omega
      · exact hmax
    have hcool : plan0.last_rescue_time + RESCUE_COOLDOWN ≤ now := by
      rw [hlrt]
      have h1 : (7776000 : Int) ≤ now := hcd
      show (0 : Int) + RESCUE_COOLDOWN ≤ now
      unfold RESCUE_COOLDOWN
      omega
    refine ⟨⟨user, recovery, delay, 0, plan0.last_rescue_time⟩,
      ⟨user, recovery, delay, now + delay, now⟩,
      ⟨user, recovery, delay, 0, 0⟩,
      ⟨user, recovery, delay, now + delay, now⟩, ?_, ?_, ?_, ?_⟩
    · unfold register_plan
      simp only [requireE_pos hp, requireE_pos hrz, requireE_pos hru,
        requireE_pos hdmin, requireE_pos hdmax, ok_bind]
      rfl
    · unfold initiate_rescue
      simp only [requireE_pos hp, requireE_pos hrz,
        requireE_true, requireE_pos hcool,
        requireE_pos hov, ok_bind]
      rfl
    · unfold cancel_rescue
      simp only [requireE_pos (by omega : ¬ now + delay = 0), ok_bind]
      rfl
    · unfold initiate_rescue
      have hcool0 : (0 : Int) + RESCUE_COOLDOWN ≤ now := by
        unfold RESCUE_COOLDOWN
        have h1 : (7776000 : Int) ≤ now := hcd
        omega
      simp only [requireE_pos hp, requireE_pos hrz,
        requireE_true, requireE_pos hcool0,
        requireE_pos hov, ok_bind]
      rfl

/-- Closed witness for C9 at concrete inputs. -/
theorem c9_witness :
    ∃ p1 p2 p3 p4,
      register_plan ⟨[10], [2], 0, false, []⟩ [1] [5] 604800
          ⟨[], [], 0, 0, 0⟩ = .ok p1 ∧
      initiate_rescue ⟨[10], [2], 0, false, []⟩ p1 7776000 = .ok p2 ∧
      cancel_rescue p2 = .ok p3 ∧
      initiate_rescue ⟨[10], [2], 0, false, []⟩ p3 7776000 = .ok p4 :=
  (c9_cancel_releases_cooldown).2.2 ⟨[10], [2], 0, false, []⟩ [1] [5]
    604800 7776000 ⟨[], [], 0, 0, 0⟩ rfl (by decide) (by decide)
    (by decide) (by decide) rfl (by decide) (by decide)

/-- C10: every successful `register_plan` leaves `eta = 0` and
`last_rescue_time` unchanged: re-registering while armed disarms the
pending rescue, but — unlike `cancel_rescue` — does not release the 90-day
initiation cooldown (an immediate `initiate_rescue` still fails with
`CooldownActive` while the cooldown is running). -/
theorem c10_register_keeps_cooldown :
    (∀ reg user recovery delay plan0 p',
        register_plan reg user recovery delay plan0 = .ok p' →
        p'.eta = 0 ∧ p'.last_rescue_time = plan0.last_rescue_time) ∧
    (∀ reg user recovery delay plan0 p' now,
        register_plan reg user recovery delay plan0 = .ok p' →
        now < plan0.last_rescue_time + RESCUE_COOLDOWN →
        initiate_rescue reg p' now = .error .CooldownActive) := by
  constructor
  · intro reg user recovery delay plan0 p' h
    obtain ⟨-, -, -, -, -, hp'⟩ := register_plan_ok h
    rw [hp']
    exact ⟨rfl, rfl⟩
  · intro reg user recovery delay plan0 p' now h hlt
    obtain ⟨hp, hrz, -, -, -, hp'⟩ := register_plan_ok h
    subst hp'
    unfold initiate_rescue
    have hcool : ¬ plan0.last_rescue_time + RESCUE_COOLDOWN ≤ now := by omega
    simp only [requireE_pos hp, requireE_pos hrz,
      requireE_true, requireE_neg hcool, ok_bind,
      error_bind]

/-- Closed witness for C10 at concrete inputs: re-registering over an armed
plan disarms it but keeps the cooldown, so an immediate re-initiation is
rejected. -/
theorem c10_witness :
    ∃ p', register_plan ⟨[10], [2], 0, false, []⟩ [1] [5] 604800
        ⟨[1], [5], 604800, 1604800, 1000000⟩ = .ok p' ∧
      p'.eta = 0 ∧ p'.last_rescue_time = 1000000 ∧
      initiate_rescue ⟨[10], [2], 0, false, []⟩ p' 2000000 =
        .error .CooldownActive := by
  refine ⟨_, rfl, ?_, ?_, ?_⟩
  · exact ((c10_register_keeps_cooldown).1 ⟨[10], [2], 0, false, []⟩ [1] [5]
      604800 ⟨[1], [5], 604800, 1604800, 1000000⟩ _ rfl).1
  · exact ((c10_register_keeps_cooldown).1 ⟨[10], [2], 0, false, []⟩ [1] [5]
      604800 ⟨[1], [5], 604800, 1604800, 1000000⟩ _ rfl).2
  · exact (c10_register_keeps_cooldown).2 ⟨[10], [2], 0, false, []⟩ [1] [5]
      604800 ⟨[1], [5], 604800, 1604800, 1000000⟩ _ 2000000 rfl (by decide)

end SelfRescueRegistry
